import Mathlib

/-!
Verification development for the CXone Signal API extension
(`src/unnamed/part_000`, symbol `signalApi`, plus helpers `decodeJWT`
and `isTokenExpired`).

The TypeScript node function is shallowly embedded as a pure Lean
function over an explicit invocation state (context object, log list,
trace of outbound HTTP requests, input writes).  JavaScript values that
cross the HTTP boundary or live in the `context.signal` cache are
modelled by the `Json` type below; `undefined` is modelled as `none` of
`Option Json`.  Network I/O is modelled by an oracle
`World : HttpReq → Except AxiosFailure Json` giving each request either
a failure or a response body (`response.data`).
-/

namespace CXone

/-- Exact decimal number: the value `mant * 10 ^ exp10`, kept
unnormalized as parsed.  This represents every JSON number exactly (an
abstraction of the IEEE doubles `JSON.parse` would produce; it is exact
for the integers the code reads, and no claim compares non-integer
numbers). -/
structure JNum where
  mant : Int
  exp10 : Int
deriving DecidableEq

/-- Model of a JavaScript/JSON value. -/
inductive Json where
  | null : Json
  | bool (b : Bool) : Json
  | num (n : JNum) : Json
  | str (s : String) : Json
  | arr (elems : List Json) : Json
  | obj (fields : List (String × Json)) : Json

/-- Integer-valued JSON number. -/
def jint (i : Int) : Json :=
  Json.num { mant := i, exp10 := 0 }

/-- JavaScript truthiness: `null`, `false`, `0`, `NaN` and `""` are
falsy; every object and array (even empty) is truthy. -/
def truthy : Json → Bool
  | Json.null => false
  | Json.bool b => b
  | Json.num n => decide (n.mant ≠ 0)
  | Json.str s => decide (s ≠ "")
  | Json.arr _ => true
  | Json.obj _ => true

/-- Truthiness of a possibly-`undefined` value (`undefined` is falsy). -/
def truthyOpt : Option Json → Bool
  | none => false
  | some v => truthy v

/-- First-occurrence association-list lookup, the model of property
lookup on a JS object (insertion order, no duplicate keys arise from
the modelled code). -/
def assocGet (k : String) : List (String × Json) → Option Json
  | [] => none
  | (k2, v) :: rest => if k2 = k then some v else assocGet k rest

/-- Update the first binding of a key, or append a new binding, the model
of property assignment on a JS object. -/
def assocSet (k : String) (v : Json) : List (String × Json) → List (String × Json)
  | [] => [(k, v)]
  | (k2, v2) :: rest =>
      if k2 = k then (k2, v) :: rest else (k2, v2) :: assocSet k v rest

/-- Remove every binding of a key: model of assigning `undefined` to a
property (observationally equivalent for reads and stringification in
the modelled code). -/
def assocRemove (k : String) : List (String × Json) → List (String × Json)
  | [] => []
  | (k2, v2) :: rest =>
      if k2 = k then assocRemove k rest else (k2, v2) :: assocRemove k rest

/-- JS property read `v.k`: `undefined` (`none`) on anything but an
object with that key (property reads on primitives yield `undefined`;
the modelled code never reads properties of `null`/`undefined` without
having established truthiness first). -/
def jsGetField (v : Json) (k : String) : Option Json :=
  match v with
  | Json.obj fields => assocGet k fields
  | _ => none

/-- JS property write `v.k = x`: updates objects, and is a no-op on
primitives (non-strict-mode semantics; the modelled code only writes to
the cache object it created or was given). -/
def jsSetField (v : Json) (k : String) (x : Json) : Json :=
  match v with
  | Json.obj fields => Json.obj (assocSet k x fields)
  | _ => v

/-- JS property write of a possibly-`undefined` right-hand side. -/
def jsSetFieldOpt (v : Json) (k : String) (x : Option Json) : Json :=
  match x with
  | some x => jsSetField v k x
  | none =>
      match v with
      | Json.obj fields => Json.obj (assocRemove k fields)
      | _ => v

/-- Decimal digits accumulator, most significant first (auxiliary for
number display; the fuel bounds the digit count and never runs out for
fuel larger than the number). -/
def natDigitsGo : Nat → Nat → List Nat → List Nat
  | 0, n, acc => n :: acc
  | fuel + 1, n, acc => if n < 10 then n :: acc else natDigitsGo fuel (n / 10) (n % 10 :: acc)

/-- Decimal string of a natural number (auxiliary, agrees with JS for
the integers the code prints). -/
def natToDec (n : Nat) : String :=
  String.mk ((natDigitsGo n n []).map (fun d => Char.ofNat (48 + d)))

/-- Decimal string of an integer. -/
def intToDec (i : Int) : String :=
  if i < 0 then "-" ++ natToDec i.natAbs else natToDec i.natAbs

/-- JS string conversion as used in template literals.  Exact for
strings, booleans, `null` and integer numbers; non-integer number
display is approximated (no claim depends on it), and the array/object
cases are unreachable in the modelled paths. -/
def jsDisplay : Json → String
  | Json.null => "null"
  | Json.bool b => if b then "true" else "false"
  | Json.num n => if n.exp10 = 0 then intToDec n.mant else intToDec n.mant ++ "e" ++ intToDec n.exp10
  | Json.str s => s
  | Json.arr _ => ""
  | Json.obj _ => "[object Object]"

/-- JS string conversion with `undefined` rendered as in template
literals. -/
def jsDisplayOpt : Option Json → String
  | none => "undefined"
  | some v => jsDisplay v

/-! UTF-8 encoding and decoding, used by `Buffer.from(...)` and
`Buffer.prototype.toString('utf8')`. -/

/-- UTF-8 bytes of one scalar value. -/
def utf8EncodeChar (c : Char) : List Nat :=
  let n := c.toNat
  if n < 0x80 then [n]
  else if n < 0x800 then [0xC0 + n / 64, 0x80 + n % 64]
  else if n < 0x10000 then [0xE0 + n / 4096, 0x80 + (n / 64) % 64, 0x80 + n % 64]
  else [0xF0 + n / 262144, 0x80 + (n / 4096) % 64, 0x80 + (n / 64) % 64, 0x80 + n % 64]

/-- UTF-8 bytes of a string. -/
def utf8EncodeStr (s : String) : List Nat :=
  (s.data.map utf8EncodeChar).flatten

/-- Continuation byte test. -/
def utf8Cont (b : Nat) : Bool :=
  decide (0x80 ≤ b ∧ b ≤ 0xBF)

/-- Unicode replacement character, emitted for ill-formed input as
`Buffer.prototype.toString('utf8')` does (the exact replacement
granularity of the platform decoder is approximated; no claim depends
on ill-formed multi-byte input). -/
def replChar : Char := Char.ofNat 0xFFFD

/-- Decode a UTF-8 byte sequence to characters, replacing ill-formed
sequences with U+FFFD.  The fuel argument bounds the recursion; every
step consumes at least one byte, so fuel equal to the byte count never
runs out. -/
def utf8DecodeGo : Nat → List Nat → List Char
  | 0, _ => []
  | _, [] => []
  | fuel + 1, b :: rest =>
    if b < 0x80 then Char.ofNat b :: utf8DecodeGo fuel rest
    else if 0xC2 ≤ b ∧ b ≤ 0xDF then
      match rest with
      | [] => [replChar]
      | b2 :: rest2 =>
        if utf8Cont b2 then Char.ofNat ((b - 0xC0) * 64 + (b2 - 0x80)) :: utf8DecodeGo fuel rest2
        else replChar :: utf8DecodeGo fuel rest
    else if 0xE0 ≤ b ∧ b ≤ 0xEF then
      match rest with
      | b2 :: b3 :: rest3 =>
        let code := (b - 0xE0) * 4096 + (b2 - 0x80) * 64 + (b3 - 0x80)
        if utf8Cont b2 ∧ utf8Cont b3 ∧ 0x800 ≤ code ∧ ¬(0xD800 ≤ code ∧ code ≤ 0xDFFF) then
          Char.ofNat code :: utf8DecodeGo fuel rest3
        else replChar :: utf8DecodeGo fuel rest
      | _ => [replChar]
    else if 0xF0 ≤ b ∧ b ≤ 0xF4 then
      match rest with
      | b2 :: b3 :: b4 :: rest4 =>
        let code := (b - 0xF0) * 262144 + (b2 - 0x80) * 4096 + (b3 - 0x80) * 64 + (b4 - 0x80)
        if utf8Cont b2 ∧ utf8Cont b3 ∧ utf8Cont b4 ∧ 0x10000 ≤ code ∧ code ≤ 0x10FFFF then
          Char.ofNat code :: utf8DecodeGo fuel rest4
        else replChar :: utf8DecodeGo fuel rest
      | _ => [replChar]
    else replChar :: utf8DecodeGo fuel rest

/-- Decode a UTF-8 byte sequence to characters. -/
def utf8DecodeBytes (l : List Nat) : List Char :=
  utf8DecodeGo l.length l

/-! Base64, as implemented by Node's `Buffer`.  Decoding is forgiving:
it accepts both the standard and the URL-safe alphabet, ignores
whitespace (documented Node behaviour), stops at padding, and imposes
no length or padding requirement.  A character outside alphabet,
whitespace and padding is outside the documented domain and is modelled
as a decode failure. -/

/-- Sextet value of a base64 character, accepting both the standard and
the URL-safe alphabet. -/
def base64Val (c : Char) : Option Nat :=
  let n := c.toNat
  if 65 ≤ n ∧ n ≤ 90 then some (n - 65)
  else if 97 ≤ n ∧ n ≤ 122 then some (n - 71)
  else if 48 ≤ n ∧ n ≤ 57 then some (n + 4)
  else if c = '+' ∨ c = '-' then some 62
  else if c = '/' ∨ c = '_' then some 63
  else none

/-- JS whitespace characters ignored by the base64 decoder. -/
def isJsSpace (c : Char) : Bool :=
  c = ' ' ∨ c = Char.ofNat 9 ∨ c = Char.ofNat 10 ∨ c = Char.ofNat 13 ∨
    c = Char.ofNat 12 ∨ c = Char.ofNat 11

/-- Collect the sextets of a base64 string: whitespace is skipped,
padding terminates the data, other non-alphabet characters are a
failure (unmodelled domain). -/
def base64Sextets : List Char → Option (List Nat)
  | [] => some []
  | c :: rest =>
    if c = '=' then some []
    else if isJsSpace c then base64Sextets rest
    else
      match base64Val c with
      | some v => (base64Sextets rest).map (fun vs => v :: vs)
      | none => none

/-- Reassemble bytes from sextets; a trailing lone sextet contributes no
byte, two or three trailing sextets contribute one or two bytes. -/
def sextetsToBytes : List Nat → List Nat
  | a :: b :: c :: d :: rest =>
      (a * 4 + b / 16) :: ((b % 16) * 16 + c / 4) :: ((c % 4) * 64 + d) :: sextetsToBytes rest
  | [a, b] => [a * 4 + b / 16]
  | [a, b, c] => [a * 4 + b / 16, (b % 16) * 16 + c / 4]
  | _ => []

/-- Model of `Buffer.from(s, 'base64')`. -/
def nodeBase64DecodeBytes (s : String) : Option (List Nat) :=
  (base64Sextets s.data).map sextetsToBytes

/-- Model of `Buffer.from(s, 'base64').toString('utf8')`. -/
def nodeBase64ToUtf8 (s : String) : Option String :=
  (nodeBase64DecodeBytes s).map (fun bs => String.mk (utf8DecodeBytes bs))

/-- Character of a sextet in the standard base64 alphabet. -/
def base64Char (n : Nat) : Char :=
  if n < 26 then Char.ofNat (65 + n)
  else if n < 52 then Char.ofNat (71 + n)
  else if n < 62 then Char.ofNat (n - 4)
  else if n = 62 then '+'
  else '/'

/-- Standard padded base64 of a byte sequence
(`Buffer.prototype.toString('base64')`). -/
def base64EncodeBytes : List Nat → List Char
  | b1 :: b2 :: b3 :: rest =>
      base64Char (b1 / 4) :: base64Char ((b1 % 4) * 16 + b2 / 16) ::
        base64Char ((b2 % 16) * 4 + b3 / 64) :: base64Char (b3 % 64) :: base64EncodeBytes rest
  | [b1] => [base64Char (b1 / 4), base64Char ((b1 % 4) * 16), '=', '=']
  | [b1, b2] => [base64Char (b1 / 4), base64Char ((b1 % 4) * 16 + b2 / 16), base64Char ((b2 % 16) * 4), '=']
  | [] => []

/-- Model of `Buffer.from(s).toString('base64')` (UTF-8 bytes, then
standard base64). -/
def toBase64Utf8 (s : String) : String :=
  String.mk (base64EncodeBytes (utf8EncodeStr s))

/-! Percent encodings: `encodeURIComponent` and the
`application/x-www-form-urlencoded` serialization of `URLSearchParams`. -/

/-- Uppercase hexadecimal digit. -/
def hexCharUpper (n : Nat) : Char :=
  if n < 10 then Char.ofNat (48 + n) else Char.ofNat (55 + n)

/-- Percent-escape of one byte, uppercase as the JS functions emit. -/
def percentByte (b : Nat) : String :=
  String.mk ['%', hexCharUpper (b / 16), hexCharUpper (b % 16)]

/-- Characters `encodeURIComponent` leaves unescaped. -/
def uriUnescaped (c : Char) : Bool :=
  c.isAlpha ∨ c.isDigit ∨
    c = '-' ∨ c = '_' ∨ c = '.' ∨ c = '!' ∨ c = '~' ∨ c = '*' ∨
    c = Char.ofNat 39 ∨ c = '(' ∨ c = ')'

/-- Model of JS `encodeURIComponent`. -/
def encodeURIComponent (s : String) : String :=
  (s.data.map (fun c =>
    if uriUnescaped c then String.mk [c]
    else String.join ((utf8EncodeChar c).map percentByte))).foldl (· ++ ·) ""

/-- Characters the `application/x-www-form-urlencoded` serializer
leaves unescaped. -/
def formUnescaped (c : Char) : Bool :=
  c.isAlpha ∨ c.isDigit ∨ c = '*' ∨ c = '-' ∨ c = '.' ∨ c = '_'

/-- Model of the `URLSearchParams` value serialization (space becomes
`+`). -/
def formEncode (s : String) : String :=
  (s.data.map (fun c =>
    if formUnescaped c then String.mk [c]
    else if c = ' ' then "+"
    else String.join ((utf8EncodeChar c).map percentByte))).foldl (· ++ ·) ""

/-! Model of `JSON.parse` over the `Json` type (exact rational numbers
instead of IEEE doubles; this is exact for the integer claims the code
reads). -/

/-- JSON insignificant whitespace. -/
def jsonWs (c : Char) : Bool :=
  c = ' ' ∨ c = Char.ofNat 9 ∨ c = Char.ofNat 10 ∨ c = Char.ofNat 13

/-- Drop leading JSON whitespace. -/
def skipWs (l : List Char) : List Char :=
  l.dropWhile jsonWs

/-- Hexadecimal digit value. -/
def hexVal (c : Char) : Option Nat :=
  let n := c.toNat
  if 48 ≤ n ∧ n ≤ 57 then some (n - 48)
  else if 97 ≤ n ∧ n ≤ 102 then some (n - 87)
  else if 65 ≤ n ∧ n ≤ 70 then some (n - 55)
  else none

/-- Single-character JSON string escapes. -/
def jsonEscapeChar (c : Char) : Option Char :=
  if c = '"' ∨ c = '\\' ∨ c = '/' then some c
  else if c = 'b' then some (Char.ofNat 8)
  else if c = 'f' then some (Char.ofNat 12)
  else if c = 'n' then some (Char.ofNat 10)
  else if c = 'r' then some (Char.ofNat 13)
  else if c = 't' then some (Char.ofNat 9)
  else none

/-- Parse the body of a JSON string after the opening quote, returning
the characters and the input after the closing quote.  `\\uXXXX`
surrogate pairs are combined; a lone surrogate is modelled as U+FFFD
(JS would keep a lone UTF-16 surrogate, which a Lean `Char` cannot
carry; no claim depends on lone surrogates). -/
def parseStrChars : Nat → List Char → Option (List Char × List Char)
  | 0, _ => none
  | _, [] => none
  | fuel + 1, c :: rest =>
    if c = '"' then some ([], rest)
    else if c = '\\' then
      match rest with
      | [] => none
      | e :: rest2 =>
        if e = 'u' then
          match rest2 with
          | h1 :: h2 :: h3 :: h4 :: rest3 =>
            match hexVal h1, hexVal h2, hexVal h3, hexVal h4 with
            | some a, some b, some c2, some d =>
              let code := a * 4096 + b * 256 + c2 * 16 + d
              if 0xD800 ≤ code ∧ code ≤ 0xDBFF then
                match rest3 with
                | '\\' :: 'u' :: g1 :: g2 :: g3 :: g4 :: rest4 =>
                  match hexVal g1, hexVal g2, hexVal g3, hexVal g4 with
                  | some a2, some b2, some c3, some d2 =>
                    let lo := a2 * 4096 + b2 * 256 + c3 * 16 + d2
                    if 0xDC00 ≤ lo ∧ lo ≤ 0xDFFF then
                      (parseStrChars fuel rest4).map (fun p =>
                        (Char.ofNat (0x10000 + (code - 0xD800) * 1024 + (lo - 0xDC00)) :: p.1, p.2))
                    else (parseStrChars fuel rest3).map (fun p => (replChar :: p.1, p.2))
                  | _, _, _, _ => (parseStrChars fuel rest3).map (fun p => (replChar :: p.1, p.2))
                | _ => (parseStrChars fuel rest3).map (fun p => (replChar :: p.1, p.2))
              else if 0xDC00 ≤ code ∧ code ≤ 0xDFFF then
                (parseStrChars fuel rest3).map (fun p => (replChar :: p.1, p.2))
              else (parseStrChars fuel rest3).map (fun p => (Char.ofNat code :: p.1, p.2))
            | _, _, _, _ => none
          | _ => none
        else
          match jsonEscapeChar e with
          | some ec => (parseStrChars fuel rest2).map (fun p => (ec :: p.1, p.2))
          | none => none
    else if c.toNat < 0x20 then none
    else (parseStrChars fuel rest).map (fun p => (c :: p.1, p.2))

/-- Span of decimal digits. -/
def spanDigits (l : List Char) : List Char × List Char :=
  l.span Char.isDigit

/-- Natural value of a digit sequence. -/
def natOfDigitChars (l : List Char) : Nat :=
  l.foldl (fun acc c => acc * 10 + (c.toNat - 48)) 0

/-- Parse an optional JSON fraction part, returning its digits. -/
def parseJsonFrac : List Char → Option (List Char × List Char)
  | '.' :: rest =>
      let p := spanDigits rest
      if p.1 = [] then none
      else some (p.1, p.2)
  | l => some ([], l)

/-- Parse exponent digits into a signed exponent. -/
def parseExpDigits (negE : Bool) (l : List Char) : Option (Int × List Char) :=
  let p := spanDigits l
  if p.1 = [] then none
  else
    let e : Int := (natOfDigitChars p.1 : Nat)
    some (if negE then -e else e, p.2)

/-- Parse an optional JSON exponent part into a signed exponent. -/
def parseJsonExp : List Char → Option (Int × List Char)
  | c :: rest =>
      if c = 'e' ∨ c = 'E' then
        match rest with
        | s :: r2 =>
            if s = '+' then parseExpDigits false r2
            else if s = '-' then parseExpDigits true r2
            else parseExpDigits false rest
        | [] => none
      else some (0, c :: rest)
  | [] => some (0, [])

/-- Parse a JSON number into its exact decimal value. -/
def parseJsonNumber (l : List Char) : Option (JNum × List Char) :=
  let sp : Bool × List Char :=
    match l with
    | c :: rest => if c = '-' then (true, rest) else (false, l)
    | [] => (false, [])
  let ds := spanDigits sp.2
  if ds.1 = [] then none
  else if 1 < ds.1.length ∧ ds.1.head? = some '0' then none
  else
    match parseJsonFrac ds.2 with
    | none => none
    | some (fs, l3) =>
      match parseJsonExp l3 with
      | none => none
      | some (ex, l4) =>
        let m : Int := (natOfDigitChars (ds.1 ++ fs) : Nat)
        some ({ mant := if sp.1 then -m else m, exp10 := ex - fs.length }, l4)

/-- Normalize parsed object members: later duplicate keys overwrite
earlier ones in place, as `JSON.parse` does. -/
def dedupMembers (ms : List (String × Json)) : List (String × Json) :=
  ms.foldl (fun acc kv => assocSet kv.1 kv.2 acc) []

mutual

/-- Parse one JSON value after optional leading whitespace. -/
def parseJsonValue : Nat → List Char → Option (Json × List Char)
  | 0, _ => none
  | fuel + 1, l =>
    match skipWs l with
    | [] => none
    | c :: rest =>
      if c = '"' then
        (parseStrChars (rest.length + 1) rest).map (fun p => (Json.str (String.mk p.1), p.2))
      else if c = '[' then
        match skipWs rest with
        | ']' :: r2 => some (Json.arr [], r2)
        | l2 => (parseJsonItems fuel l2).map (fun p => (Json.arr p.1, p.2))
      else if c = Char.ofNat 123 then
        match skipWs rest with
        | c2 :: r2 =>
          if c2 = Char.ofNat 125 then some (Json.obj [], r2)
          else (parseJsonMembers fuel (c2 :: r2)).map (fun p => (Json.obj (dedupMembers p.1), p.2))
        | [] => none
      else if c = 't' then
        match rest with
        | 'r' :: 'u' :: 'e' :: r => some (Json.bool true, r)
        | _ => none
      else if c = 'f' then
        match rest with
        | 'a' :: 'l' :: 's' :: 'e' :: r => some (Json.bool false, r)
        | _ => none
      else if c = 'n' then
        match rest with
        | 'u' :: 'l' :: 'l' :: r => some (Json.null, r)
        | _ => none
      else (parseJsonNumber (c :: rest)).map (fun p => (Json.num p.1, p.2))

/-- Parse the comma-separated items of a non-empty array, consuming the
closing bracket. -/
def parseJsonItems : Nat → List Char → Option (List Json × List Char)
  | 0, _ => none
  | fuel + 1, l =>
    match parseJsonValue fuel l with
    | none => none
    | some (v, r) =>
      match skipWs r with
      | ',' :: r2 => (parseJsonItems fuel r2).map (fun p => (v :: p.1, p.2))
      | ']' :: r2 => some ([v], r2)
      | _ => none

/-- Parse the members of a non-empty object, consuming the closing
brace. -/
def parseJsonMembers : Nat → List Char → Option (List (String × Json) × List Char)
  | 0, _ => none
  | fuel + 1, l =>
    match skipWs l with
    | '"' :: r =>
      match parseStrChars (r.length + 1) r with
      | none => none
      | some (ks, r2) =>
        match skipWs r2 with
        | ':' :: r3 =>
          match parseJsonValue fuel r3 with
          | none => none
          | some (v, r4) =>
            match skipWs r4 with
            | ',' :: r5 => (parseJsonMembers fuel r5).map (fun p => ((String.mk ks, v) :: p.1, p.2))
            | c5 :: r5 =>
              if c5 = Char.ofNat 125 then some ([(String.mk ks, v)], r5) else none
            | [] => none
        | _ => none
    | _ => none

end

/-- Model of `JSON.parse`: a parsed value with only whitespace left,
`none` for a syntax error.  The fuel is generous: every recursive
descent consumes at least one character, so it never runs out on any
input. -/
def jsonParse (s : String) : Option Json :=
  match parseJsonValue (2 * s.length + 2) s.data with
  | some (v, r) => if skipWs r = [] then some v else none
  | none => none

/-- Lowercase hexadecimal digit. -/
def hexCharLower (n : Nat) : Char :=
  if n < 10 then Char.ofNat (48 + n) else Char.ofNat (87 + n)

/-- JSON quoting of one character, as `JSON.stringify` emits. -/
def jsonQuoteChar (c : Char) : String :=
  if c = '"' then String.mk ['\\', '"']
  else if c = '\\' then String.mk ['\\', '\\']
  else if c = Char.ofNat 8 then String.mk ['\\', 'b']
  else if c = Char.ofNat 9 then String.mk ['\\', 't']
  else if c = Char.ofNat 10 then String.mk ['\\', 'n']
  else if c = Char.ofNat 12 then String.mk ['\\', 'f']
  else if c = Char.ofNat 13 then String.mk ['\\', 'r']
  else if c.toNat < 0x20 then
    String.mk ['\\', 'u', '0', '0', hexCharLower (c.toNat / 16), hexCharLower (c.toNat % 16)]
  else String.mk [c]

/-- JSON string literal of a string. -/
def jsonQuote (s : String) : String :=
  "\"" ++ (s.data.map jsonQuoteChar).foldl (· ++ ·) "" ++ "\""

mutual

/-- Model of `JSON.stringify` (non-integer number display approximated;
no claim depends on it). -/
def jsonStringify : Json → String
  | Json.null => "null"
  | Json.bool b => if b then "true" else "false"
  | Json.num n => if n.exp10 = 0 then intToDec n.mant else intToDec n.mant ++ "e" ++ intToDec n.exp10
  | Json.str s => jsonQuote s
  | Json.arr es => "[" ++ stringifyItems es ++ "]"
  | Json.obj ms => "\x7b" ++ stringifyMembers ms ++ "\x7d"

/-- Comma-joined stringification of array items. -/
def stringifyItems : List Json → String
  | [] => ""
  | [v] => jsonStringify v
  | v :: rest => jsonStringify v ++ "," ++ stringifyItems rest

/-- Comma-joined stringification of object members. -/
def stringifyMembers : List (String × Json) → String
  | [] => ""
  | [kv] => jsonQuote kv.1 ++ ":" ++ jsonStringify kv.2
  | kv :: rest => jsonQuote kv.1 ++ ":" ++ jsonStringify kv.2 ++ "," ++ stringifyMembers rest

end

/-! The two helper functions of the source file. -/

/-- Split a character list at every occurrence of a separator, keeping
empty segments. -/
def splitOnChar (sep : Char) : List Char → List (List Char)
  | [] => [[]]
  | c :: rest =>
    let r := splitOnChar sep rest
    if c = sep then [] :: r
    else
      match r with
      | [] => [[c]]
      | h :: t => (c :: h) :: t

/-- Model of JS `s.split('.')` (single-character separator, empty
segments kept, a split of the empty string is `[""]`). -/
def jsSplit (s : String) (sep : Char) : List String :=
  (splitOnChar sep s.data).map String.mk

/-- Transcription of the source helper `decodeJWT` (lines 64-76): split
on dots, require exactly three segments, base64-decode the middle
segment as `Buffer.from(payload, 'base64').toString('utf8')`, and
`JSON.parse` the result; any failure is caught and rethrown with a
`Failed to decode JWT:` message.  Node's base64 decoding itself never
throws; its behaviour on characters outside alphabet, whitespace and
padding is undocumented and modelled as a failure. -/
def decodeJWT (token : String) : Except String Json :=
  let parts := jsSplit token '.'
  if parts.length ≠ 3 then Except.error "Failed to decode JWT: Invalid JWT format"
  else
    let payload := (parts.get? 1).getD ""
    match nodeBase64ToUtf8 payload with
    | none => Except.error "Failed to decode JWT: unmodelled base64 input"
    | some decoded =>
      match jsonParse decoded with
      | some j => Except.ok j
      | none => Except.error "Failed to decode JWT: Unexpected token in JSON"

/-- JS `ToNumber` coercion as needed by the `<` comparison in
`isTokenExpired` (array and object coercion is unreachable there and
modelled as NaN). -/
def jsToNumber : Json → Option JNum
  | Json.null => some { mant := 0, exp10 := 0 }
  | Json.bool b => some { mant := if b then 1 else 0, exp10 := 0 }
  | Json.num n => some n
  | Json.str s =>
      let l := (s.data.dropWhile isJsSpace).reverse.dropWhile isJsSpace |>.reverse
      if l = [] then some { mant := 0, exp10 := 0 }
      else
        let sp : Bool × List Char :=
          match l with
          | c :: rest => if c = '-' then (true, rest) else if c = '+' then (false, rest) else (false, l)
          | [] => (false, [])
        let ds := spanDigits sp.2
        let fr : List Char × List Char :=
          match ds.2 with
          | '.' :: r => spanDigits r
          | _ => ([], ds.2)
        if ds.1 = [] ∧ fr.1 = [] then none
        else
          match parseJsonExp fr.2 with
          | none => none
          | some (ex, l4) =>
            if l4 = [] then
              let m : Int := (natOfDigitChars (ds.1 ++ fr.1) : Nat)
              some { mant := if sp.1 then -m else m, exp10 := ex - fr.1.length }
            else none
  | Json.arr _ => none
  | Json.obj _ => none

/-- Comparison `n < t` of an exact decimal against an integer (both
sides multiplied by the positive power of ten that clears the
exponent). -/
def jnumLtInt (n : JNum) (t : Int) : Bool :=
  if 0 ≤ n.exp10 then decide (n.mant * 10 ^ n.exp10.toNat < t)
  else decide (n.mant < t * 10 ^ (-n.exp10).toNat)

/-- Transcription of the source helper `isTokenExpired` (lines 79-86):
a decoded token with a falsy `exp` claim is expired; otherwise compare
`exp < currentTime + 60` (a NaN comparison yields `false`). -/
def isTokenExpired (decodedToken : Json) (currentTime : Int) : Bool :=
  match jsGetField decodedToken "exp" with
  | none => true
  | some e =>
    if truthy e = false then true
    else
      match jsToNumber e with
      | some q => jnumLtInt q (currentTime + 60)
      | none => false

/-- Calling `decodeJWT` on a cached or freshly returned value that need
not be a string: a non-string receiver makes `token.split` throw a
`TypeError` inside the `try`, which `decodeJWT` catches and rewraps. -/
def jsDecodeJWT : Option Json → Except String Json
  | some (Json.str s) => decodeJWT s
  | _ => Except.error "Failed to decode JWT: token.split is not a function"

/-! Embedding of the node function `signalApi` (lines 183-359).  Each
`Step N` comment block of the source becomes one Lean definition; the
whole `try` body is their composition `signalApiInner`, and
`signalApiRun` adds the `catch` handler. -/

/-- Configuration destructured at the top of the node function. -/
structure SignalConfig where
  basicAuthUsername : String
  basicAuthPassword : String
  appUsername : String
  appPassword : String
  contactId : String
  parameters : List String
  storageType : String
  storageKey : String

/-- An outbound HTTP request as issued through axios. -/
inductive HttpReq where
  | get (url : String) : HttpReq
  | post (url : String) (body : String) (headers : List (String × String)) : HttpReq
deriving DecidableEq

/-- A failed axios call: an error message and the optional
`error.response.data` body. -/
structure AxiosFailure where
  message : String
  respData : Option Json

/-- The network oracle: every request either fails or yields a
`response.data` body. -/
def World : Type :=
  HttpReq → Except AxiosFailure Json

/-- A thrown JS error value as observed by the `catch` handler: its
`name`, `message`, optional `step` property (no throw site of the
source ever sets one) and optional `response.data`. -/
structure JsErr where
  name : String
  message : String
  step : Option String
  respData : Option Json

/-- Error thrown by a `throw new Error(msg)` statement. -/
def jsErrorThrow (msg : String) : JsErr :=
  { name := "Error", message := msg, step := none, respData := none }

/-- Error thrown by a failed axios call. -/
def axiosToJsErr (f : AxiosFailure) : JsErr :=
  { name := "AxiosError", message := f.message, step := none, respData := f.respData }

/-- Mutable state of one invocation: the `context` object (an ordered
key-value map holding `context.signal` among other keys), the writes
done through `api.addToInput`, the `api.log` calls, and the trace of
outbound HTTP requests in issue order. -/
structure InvState where
  ctx : List (String × Json)
  inputWrites : List (String × Json)
  logs : List (String × String)
  trace : List HttpReq

/-- Fixed base URL of the source. -/
def BASE_URL : String := "https://cxone.niceincontact.com"

/-- Fixed API version of the source. -/
def API_VERSION : String := "v33.0"

/-- URL of the OpenID configuration lookup. -/
def openidConfigUrl : String :=
  BASE_URL ++ "/.well-known/openid-configuration"

/-- The `context.signal` cache object (total: only read after the
initialization block has ensured the key is present). -/
def cacheVal (st : InvState) : Json :=
  (assocGet "signal" st.ctx).getD Json.null

/-- Append one `api.log` entry. -/
def addLog (st : InvState) (level msg : String) : InvState :=
  { st with logs := st.logs ++ [(level, msg)] }

/-- Record one outbound HTTP request. -/
def recordReq (st : InvState) (r : HttpReq) : InvState :=
  { st with trace := st.trace ++ [r] }

/-- Property write `signalCache.k = v` (mutates the object referenced
by `context.signal`). -/
def writeCacheField (st : InvState) (k : String) (v : Json) : InvState :=
  { st with ctx := assocSet "signal" (jsSetField (cacheVal st) k v) st.ctx }

/-- Property write of a possibly-`undefined` value. -/
def writeCacheFieldOpt (st : InvState) (k : String) (v : Option Json) : InvState :=
  { st with ctx := assocSet "signal" (jsSetFieldOpt (cacheVal st) k v) st.ctx }

/-- Lines 198-201: create the cache object when `context.signal` is
falsy. -/
def stepInit (st : InvState) : InvState :=
  if truthyOpt (assocGet "signal" st.ctx) then st
  else { st with ctx := assocSet "signal" (Json.obj []) st.ctx }

/-- Step 1 (lines 209-224): check the cached token; returns
`needNewToken` and the possibly updated local `tenantId`.  Decode and
expiry failures are swallowed into a refresh. -/
def stepCheckToken (now : Int) (token0 tenant0 : Option Json) (st : InvState) :
    Bool × Option Json × InvState :=
  if truthyOpt token0 then
    match jsDecodeJWT token0 with
    | Except.ok dec =>
      if isTokenExpired dec now = false then
        (false, jsGetField dec "tenantId", addLog st "info" "Using cached valid token")
      else
        (true, tenant0, addLog st "info" "Cached token expired, fetching new token")
    | Except.error msg =>
      (true, tenant0, addLog st "warn" ("Token validation failed: " ++ msg))
  else (true, tenant0, st)

/-- Step 2 (lines 226-240): fetch the OpenID configuration when a new
token is needed and no token endpoint is cached. -/
def stepOpenid (world : World) (needNew : Bool) (te0 : Option Json) (st : InvState) :
    Except (JsErr × InvState) (Option Json × InvState) :=
  if needNew ∧ ¬ truthyOpt te0 then
    let st1 := addLog st "info" "Fetching OpenID configuration"
    let st2 := recordReq st1 (HttpReq.get openidConfigUrl)
    match world (HttpReq.get openidConfigUrl) with
    | Except.error f => Except.error (axiosToJsErr f, st2)
    | Except.ok data =>
      if ¬ truthy data ∨ ¬ truthyOpt (jsGetField data "token_endpoint") then
        Except.error (jsErrorThrow "Failed to retrieve token_endpoint from OpenID configuration", st2)
      else
        let te := jsGetField data "token_endpoint"
        let st3 := writeCacheFieldOpt st2 "tokenEndpoint" te
        Except.ok (te, addLog st3 "info" ("Retrieved token endpoint: " ++ jsDisplayOpt te))
  else Except.ok (te0, st)

/-- Step 3 and step 4 (lines 242-281): request a token with Basic auth
and a password-grant form body, cache it, decode it and cache the
extracted tenant id. -/
def stepToken (cfg : SignalConfig) (world : World) (needNew : Bool)
    (te : Option Json) (token0 tenant1 : Option Json) (st : InvState) :
    Except (JsErr × InvState) (Option Json × Option Json × InvState) :=
  if needNew then
    let st1 := addLog st "info" "Requesting access token"
    let basicAuthString := toBase64Utf8 (cfg.basicAuthUsername ++ ":" ++ cfg.basicAuthPassword)
    let body := "grant_type=password&username=" ++ formEncode cfg.appUsername ++
      "&password=" ++ formEncode cfg.appPassword
    let req := HttpReq.post (jsDisplayOpt te) body
      [("Authorization", "Basic " ++ basicAuthString),
       ("Content-Type", "application/x-www-form-urlencoded")]
    let st2 := recordReq st1 req
    match world req with
    | Except.error f => Except.error (axiosToJsErr f, st2)
    | Except.ok data =>
      if ¬ truthy data ∨ ¬ truthyOpt (jsGetField data "access_token") then
        Except.error (jsErrorThrow "Failed to retrieve access token from response", st2)
      else
        let tok := jsGetField data "access_token"
        let st3 := writeCacheFieldOpt st2 "token" tok
        let st4 := addLog st3 "info" "Access token retrieved successfully"
        match jsDecodeJWT tok with
        | Except.error m => Except.error (jsErrorThrow m, st4)
        | Except.ok dec =>
          let ten := jsGetField dec "tenantId"
          let st5 := writeCacheFieldOpt st4 "tenantId" ten
          Except.ok (tok, ten, addLog st5 "info" ("Extracted tenant ID: " ++ jsDisplayOpt ten))
  else Except.ok (token0, tenant1, st)

/-- URL of the tenant discovery lookup. -/
def discoveryUrlOf (tenant : Option Json) : String :=
  BASE_URL ++ "/.well-known/cxone-configuration?tenantId=" ++ jsDisplayOpt tenant

/-- Step 5 (lines 283-297): resolve the API endpoint when none is
cached. -/
def stepDiscovery (world : World) (ae0 tenant : Option Json) (st : InvState) :
    Except (JsErr × InvState) (Option Json × InvState) :=
  if ¬ truthyOpt ae0 then
    let st1 := addLog st "info" "Fetching API endpoint from discovery service"
    let url := discoveryUrlOf tenant
    let st2 := recordReq st1 (HttpReq.get url)
    match world (HttpReq.get url) with
    | Except.error f => Except.error (axiosToJsErr f, st2)
    | Except.ok data =>
      if ¬ truthy data ∨ ¬ truthyOpt (jsGetField data "api_endpoint") then
        Except.error (jsErrorThrow "Failed to retrieve api_endpoint from discovery service", st2)
      else
        let ae := jsGetField data "api_endpoint"
        let st3 := writeCacheFieldOpt st2 "apiEndpoint" ae
        Except.ok (ae, addLog st3 "info" ("Retrieved API endpoint: " ++ jsDisplayOpt ae))
  else Except.ok (ae0, st)

/-- The `(value, index) => p<index+1>=<urlEncoded(value)>` mapping of
step 6, with the running index made explicit. -/
def signalQueryGo : Nat → List String → List String
  | _, [] => []
  | i, v :: rest =>
      ("p" ++ natToDec (i + 1) ++ "=" ++ encodeURIComponent v) :: signalQueryGo (i + 1) rest

/-- Query components `p1=..`, .., `p9=..` of the first nine parameters
in input order. -/
def signalQueryParts (parameters : List String) : List String :=
  signalQueryGo 0 (parameters.take 9)

/-- Step 6 (lines 299-310), pure part: the signal URL with its optional
query string. -/
def buildSignalUrl (ae : Option Json) (contactId : String) (parameters : List String) : String :=
  let base := jsDisplayOpt ae ++ "/incontactapi/services/" ++ API_VERSION ++
    "/interactions/" ++ contactId ++ "/signal"
  if parameters.length > 0 then
    base ++ "?" ++ String.intercalate "&" (signalQueryParts parameters)
  else base

/-- Step 6 with its log call. -/
def stepBuildUrl (cfg : SignalConfig) (ae : Option Json) (st : InvState) : String × InvState :=
  let url := buildSignalUrl ae cfg.contactId cfg.parameters
  if cfg.parameters.length > 0 then
    (url, addLog st "info" ("Added " ++ natToDec cfg.parameters.length ++ " parameters to Signal API call"))
  else (url, st)

/-- Step 7 (lines 312-326): POST to the signal URL with an empty JSON
body and the bearer token. -/
def stepSignal (world : World) (cfg : SignalConfig) (url : String) (tok : Option Json)
    (st : InvState) : Except (JsErr × InvState) (Json × InvState) :=
  let st1 := addLog st "info" ("Calling Signal API for contact ID: " ++ cfg.contactId)
  let req := HttpReq.post url "\x7b\x7d"
    [("Authorization", "Bearer " ++ jsDisplayOpt tok), ("Accept", "application/json")]
  let st2 := recordReq st1 req
  match world req with
  | Except.error f => Except.error (axiosToJsErr f, st2)
  | Except.ok data => Except.ok (data, addLog st2 "info" "Signal API call successful")

/-- Stand-in for the whole axios response object, reached by
`signalResponse.data || signalResponse` when the body is falsy (the
real object carries further fields such as `status`; none are observed
by the modelled code). -/
def respObjJson (d : Json) : Json :=
  Json.obj [("data", d)]

/-- The value stored by step 8: the body when truthy, otherwise the
whole response object. -/
def jsResponseData (d : Json) : Json :=
  if truthy d then d else respObjJson d

/-- Step 8 (lines 328-338): store the response under the storage key in
context or input. -/
def stepStore (cfg : SignalConfig) (d : Json) (st : InvState) : InvState :=
  let responseData := jsResponseData d
  if cfg.storageType = "context" then
    let st1 := { st with ctx := assocSet cfg.storageKey responseData st.ctx }
    addLog st1 "info" ("Response stored in context." ++ cfg.storageKey)
  else
    let st1 := { st with inputWrites := st.inputWrites ++ [(cfg.storageKey, responseData)] }
    addLog st1 "info" ("Response stored in input." ++ cfg.storageKey)

/-- The error message computed by the catch handler
(`error.message || String(error)`). -/
def errMessage (e : JsErr) : String :=
  if e.message = "" then e.name else e.message

/-- Stand-in for the thrown error object itself, stored when no
response body is available (`details: error.response?.data || error`). -/
def errJson (e : JsErr) : Json :=
  Json.obj [("name", Json.str e.name), ("message", Json.str e.message)]

/-- The structured error object built in the catch handler (lines
342-346). -/
def errDetailsJson (e : JsErr) : Json :=
  Json.obj
    [("step", Json.str (match e.step with
        | some s => if s = "" then "unknown" else s
        | none => "unknown")),
     ("message", Json.str (errMessage e)),
     ("details", match e.respData with
        | some d => if truthy d then d else errJson e
        | none => errJson e)]

/-- The catch handler (lines 340-358): ensure the cache exists, write
the structured error into its `error` field and log twice. -/
def catchHandler (e : JsErr) (st : InvState) : InvState :=
  let st1 :=
    if truthyOpt (assocGet "signal" st.ctx) then st
    else { st with ctx := assocSet "signal" (Json.obj []) st.ctx }
  let st2 := writeCacheField st1 "error" (errDetailsJson e)
  let st3 := addLog st2 "error" ("Signal API Error: " ++ errMessage e)
  addLog st3 "error" ("Error details: " ++ jsonStringify (errDetailsJson e))

/-- The whole `try` body: read the cache once, then steps 1 through 8.
An `Except.error` carries the thrown error together with the state at
the moment of the throw (context mutations, logs and trace persist). -/
def signalApiInner (cfg : SignalConfig) (world : World) (now : Int) (st0 : InvState) :
    Except (JsErr × InvState) InvState :=
  let st1 := stepInit st0
  let cache := cacheVal st1
  let token0 := jsGetField cache "token"
  let tenant0 := jsGetField cache "tenantId"
  let ae0 := jsGetField cache "apiEndpoint"
  let te0 := jsGetField cache "tokenEndpoint"
  match stepCheckToken now token0 tenant0 st1 with
  | (needNew, tenant1, st2) =>
    match stepOpenid world needNew te0 st2 with
    | Except.error es => Except.error es
    | Except.ok (te1, st3) =>
      match stepToken cfg world needNew te1 token0 tenant1 st3 with
      | Except.error es => Except.error es
      | Except.ok (tok1, tenant2, st4) =>
        match stepDiscovery world ae0 tenant2 st4 with
        | Except.error es => Except.error es
        | Except.ok (ae1, st5) =>
          match stepBuildUrl cfg ae1 st5 with
          | (url, st6) =>
            match stepSignal world cfg url tok1 st6 with
            | Except.error es => Except.error es
            | Except.ok (d, st7) => Except.ok (stepStore cfg d st7)

/-- Fresh invocation state over a caller-supplied context object. -/
def initialState (ctx : List (String × Json)) : InvState :=
  { ctx := ctx, inputWrites := [], logs := [], trace := [] }

/-- One full invocation of the node function: the `try` body with the
`catch` handler around it.  Always returns (nothing is thrown past the
invocation boundary in the model, mirroring the source's catch-all). -/
def signalApiRun (cfg : SignalConfig) (world : World) (now : Int)
    (ctx : List (String × Json)) : InvState :=
  match signalApiInner cfg world now (initialState ctx) with
  | Except.ok st => st
  | Except.error (e, st) => catchHandler e st

/-- The token request issued by step 3, as a function of the
configuration and the token endpoint in use. -/
def tokenRequestOf (cfg : SignalConfig) (te : Option Json) : HttpReq :=
  HttpReq.post (jsDisplayOpt te)
    ("grant_type=password&username=" ++ formEncode cfg.appUsername ++
      "&password=" ++ formEncode cfg.appPassword)
    [("Authorization", "Basic " ++ toBase64Utf8 (cfg.basicAuthUsername ++ ":" ++ cfg.basicAuthPassword)),
     ("Content-Type", "application/x-www-form-urlencoded")]

/-- The signal request issued by step 7. -/
def signalRequestOf (url : String) (tok : Option Json) : HttpReq :=
  HttpReq.post url "\x7b\x7d"
    [("Authorization", "Bearer " ++ jsDisplayOpt tok), ("Accept", "application/json")]

/-- Cache field read used by the claim statements. -/
def cacheField (st : InvState) (k : String) : Option Json :=
  jsGetField (cacheVal st) k

/-- The path part of the signal URL (same string expression as in
`buildSignalUrl`). -/
def signalPath (ae : Option Json) (contactId : String) : String :=
  jsDisplayOpt ae ++ "/incontactapi/services/" ++ API_VERSION ++
    "/interactions/" ++ contactId ++ "/signal"

/-- The `context.signal` key holds an object. -/
def CacheShape (st : InvState) : Prop :=
  ∃ fields, assocGet "signal" st.ctx = some (Json.obj fields)

/-- What every stage before step 8 preserves about the invocation
state: no `api.addToInput` write, no context key other than `signal`
touched, the `signal` key never removed, and the cache object kept an
object. -/
structure PreservesCtx (st0 st : InvState) : Prop where
  inputEq : st.inputWrites = st0.inputWrites
  offSignal : ∀ k, k ≠ "signal" → assocGet k st.ctx = assocGet k st0.ctx
  someMono : (assocGet "signal" st0.ctx).isSome → (assocGet "signal" st.ctx).isSome
  shapeMono : CacheShape st0 → CacheShape st

/-- Admissible incoming values of `context.signal`: absent, falsy, or
an object.  A truthy primitive would make the source's strict-mode
behaviour (property assignment on a primitive) platform-dependent and
is excluded from the object-shape claims. -/
def SignalAdmissible : Option Json → Prop
  | none => True
  | some v => truthy v = false ∨ ∃ fields, v = Json.obj fields

/-- Character of the base64url alphabet. -/
def isBase64urlChar (c : Char) : Bool :=
  c.isAlpha ∨ c.isDigit ∨ c = '-' ∨ c = '_'

/-- Modelled from the spec's words, for the comparison in the decoder
claim: a valid base64url string is a sequence over the URL-safe
alphabet, allowing trailing padding. -/
def isBase64url (s : String) : Bool :=
  ((s.data.reverse.dropWhile (fun c => c = '=')).reverse).all isBase64urlChar

/-! Concrete scenario data used by witnesses and counterexamples. -/

/-- A well-formed token whose payload is
`\x7b"tenantId":"tenant1","exp":99999999999\x7d`. -/
def tok2 : String :=
  "h.eyJ0ZW5hbnRJZCI6InRlbmFudDEiLCJleHAiOjk5OTk5OTk5OTk5fQ.s"

/-- A well-formed token whose payload is
`\x7b"tenantId":"tenant1","exp":100\x7d` (long expired). -/
def tokExp : String :=
  "h.eyJ0ZW5hbnRJZCI6InRlbmFudDEiLCJleHAiOjEwMH0.s"

/-- Concrete configuration of the end-to-end scenario. -/
def cfg2 : SignalConfig :=
  { basicAuthUsername := "user", basicAuthPassword := "pass",
    appUsername := "appu", appPassword := "appp",
    contactId := "abc123", parameters := ["x"],
    storageType := "context", storageKey := "signalResponse" }

/-- A fully successful remote: OpenID configuration, token grant,
tenant discovery and signal call all answer. -/
def world2 : World := fun r =>
  match r with
  | HttpReq.get u =>
      if u = openidConfigUrl then
        Except.ok (Json.obj [("token_endpoint", Json.str "https://auth.example.com/token")])
      else if u = discoveryUrlOf (some (Json.str "tenant1")) then
        Except.ok (Json.obj [("api_endpoint", Json.str "https://api.example.com")])
      else Except.error { message := "404", respData := none }
  | HttpReq.post u _ _ =>
      if u = "https://auth.example.com/token" then
        Except.ok (Json.obj [("access_token", Json.str tok2)])
      else Except.ok (Json.obj [("result", Json.str "done")])

/-- The axios failure every request of `worldFail` produces. -/
def failW : AxiosFailure :=
  { message := "Request failed with status code 500",
    respData := some (Json.obj [("error", Json.str "server_error")]) }

/-- A remote on which every request fails. -/
def worldFail : World := fun _ => Except.error failW

/-- The invocation state at the moment `worldFail` fails the OpenID
lookup of a run started on an empty context. -/
def stW : InvState :=
  { ctx := [("signal", Json.obj [])], inputWrites := [],
    logs := [("info", "Fetching OpenID configuration")],
    trace := [HttpReq.get openidConfigUrl] }

/-- A remote whose token response lacks `access_token`. -/
def worldC5 : World := fun r =>
  match r with
  | HttpReq.get _ =>
      Except.ok (Json.obj [("token_endpoint", Json.str "https://auth.example.com/token")])
  | HttpReq.post _ _ _ => Except.ok (Json.obj [("scope", Json.str "none")])

/-- A cache holding only a valid token (no endpoints). -/
def cacheC3 : Json := Json.obj [("token", Json.str tok2)]

/-- A cache holding an expired token with its tenant id. -/
def cacheC8 : Json :=
  Json.obj [("token", Json.str tokExp), ("tenantId", Json.str "tenant1")]

/-- A cache holding a valid token and a cached API endpoint. -/
def cacheC9 : Json :=
  Json.obj [("token", Json.str tok2), ("apiEndpoint", Json.str "https://api.example.com")]

/-- A remote whose signal response body is the empty string (falsy). -/
def worldC9 : World := fun _ => Except.ok (Json.str "")

/-- The claims object encoded in `tok2`. -/
def claimsTok2 : Json :=
  Json.obj [("tenantId", Json.str "tenant1"), ("exp", jint 99999999999)]

/-- The claims object encoded in `tokExp`. -/
def claimsTokExp : Json :=
  Json.obj [("tenantId", Json.str "tenant1"), ("exp", jint 100)]

/-- Eleven parameters, for the dropped-beyond-nine scenario. -/
def ps11 : List String :=
  ["a", "b", "c", "d", "e", "f", "g", "h", "i", "j", "k"]

/-- A cache holding both endpoints and no token. -/
def cacheC8b : Json :=
  Json.obj [("tokenEndpoint", Json.str "https://auth.example.com/token"),
            ("apiEndpoint", Json.str "https://api.example.com")]

/-- A remote whose token grant answers, but with an access token that
is not a decodable JWT. -/
def worldC8c : World := fun r =>
  match r with
  | HttpReq.get _ =>
      Except.ok (Json.obj [("token_endpoint", Json.str "https://auth.example.com/token")])
  | HttpReq.post _ _ _ =>
      Except.ok (Json.obj [("access_token", Json.str "garbage")])

/-! Supporting lemmas. -/

theorem assocGet_assocSet (k k2 : String) (v : Json) (l : List (String × Json)) :
    assocGet k (assocSet k2 v l) = if k2 = k then some v else assocGet k l := by
  induction l with
  | nil =>
    by_cases h : k2 = k
    · simp [assocSet, assocGet, h]
    · simp [assocSet, assocGet, h]
  | cons hd tl ih =>
    obtain ⟨k3, v3⟩ := hd
    by_cases h3 : k3 = k2
    · subst h3
      by_cases h : k3 = k <;> simp [assocSet, assocGet, h]
    · by_cases h4 : k3 = k
      · subst h4
        have hne : ¬ k2 = k3 := fun he => h3 he.symm
        simp [assocSet, assocGet, h3, hne]
      · simp [assocSet, assocGet, h3, h4, ih]

theorem assocGet_assocSet_self (k : String) (v : Json) (l : List (String × Json)) :
    assocGet k (assocSet k v l) = some v := by
  simp [assocGet_assocSet]

theorem assocGet_assocSet_ne (k k2 : String) (v : Json) (l : List (String × Json))
    (h : k2 ≠ k) : assocGet k (assocSet k2 v l) = assocGet k l := by
  simp [assocGet_assocSet, h]

/-- A property lookup succeeding forces the value to be a truthy
object. -/
theorem truthy_of_getField (d : Json) (k : String) (v : Json)
    (h : jsGetField d k = some v) : truthy d = true := by
  cases d
  case obj => simp [truthy]
  all_goals simp [jsGetField] at h

theorem PreservesCtx.rfl (st : InvState) : PreservesCtx st st :=
  ⟨by rfl, fun _ _ => by rfl, fun h => h, fun h => h⟩

theorem PreservesCtx.trans (st0 st1 st2 : InvState)
    (h1 : PreservesCtx st0 st1) (h2 : PreservesCtx st1 st2) : PreservesCtx st0 st2 :=
  ⟨h2.inputEq.trans h1.inputEq,
   fun k hk => (h2.offSignal k hk).trans (h1.offSignal k hk),
   fun h => h2.someMono (h1.someMono h),
   fun h => h2.shapeMono (h1.shapeMono h)⟩

theorem preserves_addLog (st : InvState) (lvl msg : String) :
    PreservesCtx st (addLog st lvl msg) :=
  ⟨by rfl, fun _ _ => by rfl, fun h => h, fun h => h⟩

theorem preserves_recordReq (st : InvState) (r : HttpReq) :
    PreservesCtx st (recordReq st r) :=
  ⟨by rfl, fun _ _ => by rfl, fun h => h, fun h => h⟩

theorem preserves_writeCacheFieldOpt (st : InvState) (k : String) (v : Option Json) :
    PreservesCtx st (writeCacheFieldOpt st k v) := by
  refine ⟨by rfl, fun k2 hk2 => ?_, fun _ => ?_, fun h => ?_⟩
  · simpa [writeCacheFieldOpt] using assocGet_assocSet_ne k2 "signal" _ st.ctx (Ne.symm hk2)
  · simp [writeCacheFieldOpt, assocGet_assocSet_self]
  · obtain ⟨fields, hf⟩ := h
    have hcv : cacheVal st = Json.obj fields := by simp [cacheVal, hf]
    cases v with
    | none =>
      exact ⟨assocRemove k fields,
        by simp [writeCacheFieldOpt, assocGet_assocSet_self, hcv, jsSetFieldOpt]⟩
    | some x =>
      exact ⟨assocSet k x fields,
        by simp [writeCacheFieldOpt, assocGet_assocSet_self, hcv, jsSetFieldOpt, jsSetField]⟩

theorem preserves_writeCacheField (st : InvState) (k : String) (v : Json) :
    PreservesCtx st (writeCacheField st k v) := by
  have h := preserves_writeCacheFieldOpt st k (some v)
  simpa [writeCacheFieldOpt, writeCacheField] using h

theorem preserves_stepCheckToken (now : Int) (token0 tenant0 : Option Json) (st : InvState) :
    PreservesCtx st (stepCheckToken now token0 tenant0 st).2.2 := by
  unfold stepCheckToken
  split
  · split
    · split
      · exact preserves_addLog st _ _
      · exact preserves_addLog st _ _
    · exact preserves_addLog st _ _
  · exact PreservesCtx.rfl st

theorem preserves_stepOpenid (world : World) (needNew : Bool) (te0 : Option Json)
    (st : InvState) :
    (∀ te1 st1, stepOpenid world needNew te0 st = Except.ok (te1, st1) → PreservesCtx st st1) ∧
    (∀ e st1, stepOpenid world needNew te0 st = Except.error (e, st1) → PreservesCtx st st1) := by
  have hchain : ∀ (lvl m m2 : String) (r : HttpReq) (k : String) (v : Option Json),
      PreservesCtx st (addLog (writeCacheFieldOpt (recordReq (addLog st lvl m) r) k v) "info" m2) :=
    fun lvl m m2 r k v =>
      PreservesCtx.trans _ _ _ (preserves_addLog st _ _)
        (PreservesCtx.trans _ _ _ (preserves_recordReq _ _)
          (PreservesCtx.trans _ _ _ (preserves_writeCacheFieldOpt _ _ _) (preserves_addLog _ _ _)))
  have hbase : ∀ (lvl m : String) (r : HttpReq),
      PreservesCtx st (recordReq (addLog st lvl m) r) :=
    fun lvl m r => PreservesCtx.trans _ _ _ (preserves_addLog st _ _) (preserves_recordReq _ _)
  constructor
  · intro te1 st1 h
    simp only [stepOpenid] at h
    split at h
    · split at h
      · simp at h
      · split at h
        · simp at h
        · rw [Except.ok.injEq, Prod.mk.injEq] at h
          rw [← h.2]
          exact hchain _ _ _ _ _ _
    · rw [Except.ok.injEq, Prod.mk.injEq] at h
      rw [← h.2]
      exact PreservesCtx.rfl st
  · intro e st1 h
    simp only [stepOpenid] at h
    split at h
    · split at h
      · rw [Except.error.injEq, Prod.mk.injEq] at h
        rw [← h.2]
        exact hbase _ _ _
      · split at h
        · rw [Except.error.injEq, Prod.mk.injEq] at h
          rw [← h.2]
          exact hbase _ _ _
        · simp at h
    · simp at h

theorem preserves_stepToken (cfg : SignalConfig) (world : World) (needNew : Bool)
    (te : Option Json) (token0 tenant1 : Option Json) (st : InvState) :
    (∀ tok ten st1, stepToken cfg world needNew te token0 tenant1 st = Except.ok (tok, ten, st1) →
      PreservesCtx st st1) ∧
    (∀ e st1, stepToken cfg world needNew te token0 tenant1 st = Except.error (e, st1) →
      PreservesCtx st st1) := by
  have hbase : ∀ (lvl m : String) (r : HttpReq),
      PreservesCtx st (recordReq (addLog st lvl m) r) :=
    fun lvl m r => PreservesCtx.trans _ _ _ (preserves_addLog st _ _) (preserves_recordReq _ _)
  have hmid : ∀ (lvl m m2 : String) (r : HttpReq) (k : String) (v : Option Json),
      PreservesCtx st (addLog (writeCacheFieldOpt (recordReq (addLog st lvl m) r) k v) "info" m2) :=
    fun lvl m m2 r k v =>
      PreservesCtx.trans _ _ _ (hbase lvl m r)
        (PreservesCtx.trans _ _ _ (preserves_writeCacheFieldOpt _ _ _) (preserves_addLog _ _ _))
  have hlong : ∀ (lvl m m2 m3 : String) (r : HttpReq) (k k2 : String) (v v2 : Option Json),
      PreservesCtx st (addLog (writeCacheFieldOpt
        (addLog (writeCacheFieldOpt (recordReq (addLog st lvl m) r) k v) "info" m2) k2 v2) "info" m3) :=
    fun lvl m m2 m3 r k k2 v v2 =>
      PreservesCtx.trans _ _ _ (hmid lvl m m2 r k v)
        (PreservesCtx.trans _ _ _ (preserves_writeCacheFieldOpt _ _ _) (preserves_addLog _ _ _))
  constructor
  · intro tok ten st1 h
    simp only [stepToken] at h
    split at h
    · split at h
      · simp at h
      · split at h
        · simp at h
        · split at h
          · simp at h
          · rw [Except.ok.injEq, Prod.mk.injEq, Prod.mk.injEq] at h
            rw [← h.2.2]
            exact hlong _ _ _ _ _ _ _ _ _
    · rw [Except.ok.injEq, Prod.mk.injEq, Prod.mk.injEq] at h
      rw [← h.2.2]
      exact PreservesCtx.rfl st
  · intro e st1 h
    simp only [stepToken] at h
    split at h
    · split at h
      · rw [Except.error.injEq, Prod.mk.injEq] at h
        rw [← h.2]
        exact hbase _ _ _
      · split at h
        · rw [Except.error.injEq, Prod.mk.injEq] at h
          rw [← h.2]
          exact hbase _ _ _
        · split at h
          · rw [Except.error.injEq, Prod.mk.injEq] at h
            rw [← h.2]
            exact hmid _ _ _ _ _ _
          · simp at h
    · simp at h

theorem preserves_stepDiscovery (world : World) (ae0 tenant : Option Json) (st : InvState) :
    (∀ ae1 st1, stepDiscovery world ae0 tenant st = Except.ok (ae1, st1) → PreservesCtx st st1) ∧
    (∀ e st1, stepDiscovery world ae0 tenant st = Except.error (e, st1) → PreservesCtx st st1) := by
  have hbase : ∀ (lvl m : String) (r : HttpReq),
      PreservesCtx st (recordReq (addLog st lvl m) r) :=
    fun lvl m r => PreservesCtx.trans _ _ _ (preserves_addLog st _ _) (preserves_recordReq _ _)
  have hchain : ∀ (lvl m m2 : String) (r : HttpReq) (k : String) (v : Option Json),
      PreservesCtx st (addLog (writeCacheFieldOpt (recordReq (addLog st lvl m) r) k v) "info" m2) :=
    fun lvl m m2 r k v =>
      PreservesCtx.trans _ _ _ (hbase lvl m r)
        (PreservesCtx.trans _ _ _ (preserves_writeCacheFieldOpt _ _ _) (preserves_addLog _ _ _))
  constructor
  · intro ae1 st1 h
    simp only [stepDiscovery] at h
    split at h
    · split at h
      · simp at h
      · split at h
        · simp at h
        · rw [Except.ok.injEq, Prod.mk.injEq] at h
          rw [← h.2]
          exact hchain _ _ _ _ _ _
    · rw [Except.ok.injEq, Prod.mk.injEq] at h
      rw [← h.2]
      exact PreservesCtx.rfl st
  · intro e st1 h
    simp only [stepDiscovery] at h
    split at h
    · split at h
      · rw [Except.error.injEq, Prod.mk.injEq] at h
        rw [← h.2]
        exact hbase _ _ _
      · split at h
        · rw [Except.error.injEq, Prod.mk.injEq] at h
          rw [← h.2]
          exact hbase _ _ _
        · simp at h
    · simp at h

theorem preserves_stepBuildUrl (cfg : SignalConfig) (ae : Option Json) (st : InvState) :
    PreservesCtx st (stepBuildUrl cfg ae st).2 := by
  simp only [stepBuildUrl]
  split
  · exact preserves_addLog st _ _
  · exact PreservesCtx.rfl st

theorem preserves_stepSignal (world : World) (cfg : SignalConfig) (url : String)
    (tok : Option Json) (st : InvState) :
    (∀ d st1, stepSignal world cfg url tok st = Except.ok (d, st1) → PreservesCtx st st1) ∧
    (∀ e st1, stepSignal world cfg url tok st = Except.error (e, st1) → PreservesCtx st st1) := by
  have hbase : ∀ (lvl m : String) (r : HttpReq),
      PreservesCtx st (recordReq (addLog st lvl m) r) :=
    fun lvl m r => PreservesCtx.trans _ _ _ (preserves_addLog st _ _) (preserves_recordReq _ _)
  constructor
  · intro d st1 h
    simp only [stepSignal] at h
    split at h
    · simp at h
    · rw [Except.ok.injEq, Prod.mk.injEq] at h
      rw [← h.2]
      exact PreservesCtx.trans _ _ _ (hbase _ _ _) (preserves_addLog _ _ _)
  · intro e st1 h
    simp only [stepSignal] at h
    split at h
    · rw [Except.error.injEq, Prod.mk.injEq] at h
      rw [← h.2]
      exact hbase _ _ _
    · simp at h

/-- After the initialization block, the `signal` key is always present,
and holds an object whenever the incoming value was absent, falsy or an
object. -/
theorem stepInit_isSome (st : InvState) :
    (assocGet "signal" (stepInit st).ctx).isSome := by
  simp only [stepInit]
  split
  · rename_i h
    cases hv : assocGet "signal" st.ctx with
    | none => rw [hv] at h; simp [truthyOpt] at h
    | some v => simp [hv]
  · simp [assocGet_assocSet_self]

theorem stepInit_shape (st : InvState) (h : SignalAdmissible (assocGet "signal" st.ctx)) :
    CacheShape (stepInit st) := by
  simp only [stepInit]
  split
  · rename_i ht
    cases hv : assocGet "signal" st.ctx with
    | none => rw [hv] at ht; simp [truthyOpt] at ht
    | some v =>
      rw [hv] at ht h
      simp only [truthyOpt] at ht
      simp only [SignalAdmissible] at h
      rcases h with h | ⟨fields, rfl⟩
      · rw [h] at ht; simp at ht
      · exact ⟨fields, hv⟩
  · exact ⟨[], by simp [assocGet_assocSet_self]⟩

theorem stepInit_preserves (st : InvState) : PreservesCtx st (stepInit st) := by
  simp only [stepInit]
  split
  · exact PreservesCtx.rfl st
  · refine ⟨by rfl, fun k hk => ?_, fun _ => ?_, fun h => ?_⟩
    · simpa using assocGet_assocSet_ne k "signal" _ st.ctx (Ne.symm hk)
    · simp [assocGet_assocSet_self]
    · exact ⟨[], by simp [assocGet_assocSet_self]⟩

/-- Anything thrown inside the `try` body leaves the state reachable
from the initialized state by cache-only writes. -/
theorem inner_error_preserves (cfg : SignalConfig) (world : World) (now : Int)
    (st0 : InvState) (e : JsErr) (st1 : InvState)
    (h : signalApiInner cfg world now st0 = Except.error (e, st1)) :
    PreservesCtx (stepInit st0) st1 := by
  simp only [signalApiInner] at h
  have h1 : PreservesCtx (stepInit st0)
      (stepCheckToken now (jsGetField (cacheVal (stepInit st0)) "token")
        (jsGetField (cacheVal (stepInit st0)) "tenantId") (stepInit st0)).2.2 :=
    preserves_stepCheckToken _ _ _ _
  split at h
  · rename_i es hopen
    rw [Except.error.injEq] at h
    rw [h] at hopen
    exact PreservesCtx.trans _ _ _ h1 ((preserves_stepOpenid world _ _ _).2 e st1 hopen)
  · rename_i te1 st3 hopen
    have h2 : PreservesCtx (stepInit st0) st3 :=
      PreservesCtx.trans _ _ _ h1 ((preserves_stepOpenid world _ _ _).1 te1 st3 hopen)
    split at h
    · rename_i es htok
      rw [Except.error.injEq] at h
      rw [h] at htok
      exact PreservesCtx.trans _ _ _ h2 ((preserves_stepToken cfg world _ _ _ _ st3).2 e st1 htok)
    · rename_i tok1 tenant2 st4 htok
      have h3 : PreservesCtx (stepInit st0) st4 :=
        PreservesCtx.trans _ _ _ h2 ((preserves_stepToken cfg world _ _ _ _ st3).1 tok1 tenant2 st4 htok)
      split at h
      · rename_i es hdisc
        rw [Except.error.injEq] at h
        rw [h] at hdisc
        exact PreservesCtx.trans _ _ _ h3 ((preserves_stepDiscovery world _ _ st4).2 e st1 hdisc)
      · rename_i ae1 st5 hdisc
        have h4 : PreservesCtx (stepInit st0) st5 :=
          PreservesCtx.trans _ _ _ h3 ((preserves_stepDiscovery world _ _ st4).1 ae1 st5 hdisc)
        have h5 : PreservesCtx (stepInit st0) (stepBuildUrl cfg ae1 st5).2 :=
          PreservesCtx.trans _ _ _ h4 (preserves_stepBuildUrl cfg ae1 st5)
        split at h
        · rename_i es hsig
          rw [Except.error.injEq] at h
          rw [h] at hsig
          exact PreservesCtx.trans _ _ _ h5 ((preserves_stepSignal world cfg _ tok1 _).2 e st1 hsig)
        · simp at h

/-- A successful `try` body also leaves the state reachable by
cache-only writes up to step 8, which additionally writes the storage
key (context mode) or an input entry. -/
theorem inner_ok_shape (cfg : SignalConfig) (world : World) (now : Int)
    (st0 : InvState) (stf : InvState)
    (h : signalApiInner cfg world now st0 = Except.ok stf) :
    ∃ d st7, PreservesCtx (stepInit st0) st7 ∧ stf = stepStore cfg d st7 := by
  simp only [signalApiInner] at h
  have h1 : PreservesCtx (stepInit st0)
      (stepCheckToken now (jsGetField (cacheVal (stepInit st0)) "token")
        (jsGetField (cacheVal (stepInit st0)) "tenantId") (stepInit st0)).2.2 :=
    preserves_stepCheckToken _ _ _ _
  split at h
  · simp at h
  · rename_i te1 st3 hopen
    have h2 : PreservesCtx (stepInit st0) st3 :=
      PreservesCtx.trans _ _ _ h1 ((preserves_stepOpenid world _ _ _).1 te1 st3 hopen)
    split at h
    · simp at h
    · rename_i tok1 tenant2 st4 htok
      have h3 : PreservesCtx (stepInit st0) st4 :=
        PreservesCtx.trans _ _ _ h2 ((preserves_stepToken cfg world _ _ _ _ st3).1 tok1 tenant2 st4 htok)
      split at h
      · simp at h
      · rename_i ae1 st5 hdisc
        have h4 : PreservesCtx (stepInit st0) st5 :=
          PreservesCtx.trans _ _ _ h3 ((preserves_stepDiscovery world _ _ st4).1 ae1 st5 hdisc)
        have h5 : PreservesCtx (stepInit st0) (stepBuildUrl cfg ae1 st5).2 :=
          PreservesCtx.trans _ _ _ h4 (preserves_stepBuildUrl cfg ae1 st5)
        split at h
        · simp at h
        · rename_i d st7 hsig
          have h6 : PreservesCtx (stepInit st0) st7 :=
            PreservesCtx.trans _ _ _ h5 ((preserves_stepSignal world cfg _ tok1 _).1 d st7 hsig)
          exact ⟨d, st7, h6, (Except.ok.injEq _ _ ▸ h).symm⟩

/-- The catch handler on a state whose cache is an object: the
structured error lands in the cache's `error` field, nothing else in
the context changes, no input write happens, the two error log lines
are appended, and no request is issued. -/
theorem catchHandler_props (e : JsErr) (st : InvState) (fields : List (String × Json))
    (hf : assocGet "signal" st.ctx = some (Json.obj fields)) :
    cacheField (catchHandler e st) "error" = some (errDetailsJson e) ∧
    (∀ k, k ≠ "signal" → assocGet k (catchHandler e st).ctx = assocGet k st.ctx) ∧
    (catchHandler e st).inputWrites = st.inputWrites ∧
    (catchHandler e st).logs = st.logs ++
      [("error", "Signal API Error: " ++ errMessage e),
       ("error", "Error details: " ++ jsonStringify (errDetailsJson e))] ∧
    (catchHandler e st).trace = st.trace := by
  have htr : truthyOpt (assocGet "signal" st.ctx) = true := by
    rw [hf]; rfl
  refine ⟨?_, fun k hk => ?_, ?_, ?_, ?_⟩
  · simp only [catchHandler, htr, if_true, cacheField, cacheVal, addLog, writeCacheField,
      assocGet_assocSet_self]
    rw [hf]
    simp [jsSetField, jsGetField, assocGet_assocSet_self]
  · simp only [catchHandler, htr, if_true, addLog, writeCacheField]
    exact assocGet_assocSet_ne k "signal" _ st.ctx (Ne.symm hk)
  · simp [catchHandler, htr, addLog, writeCacheField]
  · simp [catchHandler, htr, addLog, writeCacheField]
  · simp [catchHandler, htr, addLog, writeCacheField]

/-- The catch handler always leaves `context.signal` present. -/
theorem catchHandler_isSome (e : JsErr) (st : InvState) :
    (assocGet "signal" (catchHandler e st).ctx).isSome := by
  simp only [catchHandler, addLog, writeCacheField]
  split <;> simp [assocGet_assocSet_self]

/-- Step 8 never removes the `signal` key. -/
theorem stepStore_isSome (cfg : SignalConfig) (d : Json) (st : InvState)
    (h : (assocGet "signal" st.ctx).isSome) :
    (assocGet "signal" (stepStore cfg d st).ctx).isSome := by
  simp only [stepStore, addLog]
  split
  · rw [assocGet_assocSet]
    split <;> simp [h]
  · simpa using h

/-- Claim C10: after every invocation, whether it succeeds or fails,
the cache object `context.signal` is defined: both the try block and
the catch handler create it when absent, so a structured error can be
recorded in the cache even when the failure happens before any other
cache write. -/
theorem claim_c10_signal_defined (cfg : SignalConfig) (world : World) (now : Int)
    (ctx : List (String × Json)) :
    (assocGet "signal" (signalApiRun cfg world now ctx).ctx).isSome := by
  unfold signalApiRun
  cases hinner : signalApiInner cfg world now (initialState ctx) with
  | ok st =>
    obtain ⟨d, st7, hp, rfl⟩ := inner_ok_shape _ _ _ _ _ hinner
    exact stepStore_isSome _ _ _ (hp.someMono (stepInit_isSome (initialState ctx)))
  | error p =>
    obtain ⟨e, st⟩ := p
    exact catchHandler_isSome e st

/-- Claim C1: when any pipeline step throws (discovery, token request,
API call or token decode during refresh), the invocation does not
propagate the exception: the structured `\x7bstep, message, details\x7d`
object is written to the cache's `error` field, the two error log lines
are emitted, and nothing is stored under the storage key — no
`api.addToInput` write and no context key outside `signal` changes.
Stated for incoming caches that are absent, falsy or an object (the
only shapes the code itself ever creates). -/
theorem claim_c1_error_contained (cfg : SignalConfig) (world : World) (now : Int)
    (ctx : List (String × Json)) (e : JsErr) (st1 : InvState)
    (hadm : SignalAdmissible (assocGet "signal" ctx))
    (h : signalApiInner cfg world now (initialState ctx) = Except.error (e, st1)) :
    (∃ sv mv dv, cacheField (signalApiRun cfg world now ctx) "error" =
        some (Json.obj [("step", Json.str sv), ("message", Json.str mv), ("details", dv)])) ∧
    (signalApiRun cfg world now ctx).inputWrites = [] ∧
    (∀ k, k ≠ "signal" →
      assocGet k (signalApiRun cfg world now ctx).ctx = assocGet k ctx) ∧
    (∃ pre, (signalApiRun cfg world now ctx).logs = pre ++
      [("error", "Signal API Error: " ++ errMessage e),
       ("error", "Error details: " ++ jsonStringify (errDetailsJson e))]) := by
  have hpre : PreservesCtx (stepInit (initialState ctx)) st1 :=
    inner_error_preserves cfg world now (initialState ctx) e st1 h
  have hshape : CacheShape st1 :=
    hpre.shapeMono (stepInit_shape (initialState ctx) (by simpa [initialState] using hadm))
  obtain ⟨fields, hf⟩ := hshape
  have hrun : signalApiRun cfg world now ctx = catchHandler e st1 := by
    unfold signalApiRun
    rw [h]
  obtain ⟨hc1, hc2, hc3, hc4, hc5⟩ := catchHandler_props e st1 fields hf
  refine ⟨?_, ?_, fun k hk => ?_, ?_⟩
  · rw [hrun, hc1]
    exact ⟨_, _, _, rfl⟩
  · rw [hrun, hc3, hpre.inputEq]
    have : (stepInit (initialState ctx)).inputWrites = [] := by
      simp only [stepInit]
      split <;> simp [initialState]
    exact this
  · rw [hrun, hc2 k hk, hpre.offSignal k hk,
      (stepInit_preserves (initialState ctx)).offSignal k hk]
    rfl
  · exact ⟨st1.logs, by rw [hrun, hc4]⟩

/-- Witness for C1: an empty cache and a remote that fails the OpenID
lookup with an HTTP 500. -/
theorem claim_c1_witness :
    (∃ sv mv dv, cacheField (signalApiRun cfg2 worldFail 0 []) "error" =
        some (Json.obj [("step", Json.str sv), ("message", Json.str mv), ("details", dv)])) ∧
    (signalApiRun cfg2 worldFail 0 []).inputWrites = [] :=
  let h := claim_c1_error_contained cfg2 worldFail 0 [] (axiosToJsErr failW) stW
    (by simp [assocGet, SignalAdmissible]) (by rfl)
  ⟨h.1, h.2.1⟩

/-- Claim C2 (amended): from an empty cache with contact id `abc123`
and parameters `["x"]`, a fully successful invocation performs exactly
FOUR outbound calls in order — the openid-configuration GET, the token
POST, the tenant discovery GET, and the signal POST to a URL ending in
`/interactions/abc123/signal?p1=x` — after which the cache holds token,
tenantId, tokenEndpoint and apiEndpoint. -/
theorem claim_c2_four_calls :
    (signalApiRun cfg2 world2 1760000000 []).trace =
      [HttpReq.get openidConfigUrl,
       tokenRequestOf cfg2 (some (Json.str "https://auth.example.com/token")),
       HttpReq.get (discoveryUrlOf (some (Json.str "tenant1"))),
       signalRequestOf
         "https://api.example.com/incontactapi/services/v33.0/interactions/abc123/signal?p1=x"
         (some (Json.str tok2))] ∧
    cacheField (signalApiRun cfg2 world2 1760000000 []) "token" = some (Json.str tok2) ∧
    cacheField (signalApiRun cfg2 world2 1760000000 []) "tenantId" = some (Json.str "tenant1") ∧
    cacheField (signalApiRun cfg2 world2 1760000000 []) "tokenEndpoint" =
      some (Json.str "https://auth.example.com/token") ∧
    cacheField (signalApiRun cfg2 world2 1760000000 []) "apiEndpoint" =
      some (Json.str "https://api.example.com") := by
  refine ⟨?_, ?_, ?_, ?_, ?_⟩ <;> rfl

/-- Counterexample to C2 as stated: the same successful run from the
empty cache issues four outbound HTTP requests, not three — the tenant
discovery GET also runs, because no API endpoint is cached. -/
theorem claim_c2_counterexample :
    (signalApiRun cfg2 world2 1760000000 []).trace.length = 4 := by
  rfl

/-- Claim C6 (evaluating the code at the failing input): with an empty
cache and the OpenID lookup failing, the recorded error's `step` field
is `"unknown"` rather than `"openid-configuration"`: no throw site of
the source ever attaches a `step` property, so `error.step || "unknown"`
always falls back. -/
theorem claim_c6_step_unknown :
    jsGetField ((cacheField (signalApiRun cfg2 worldFail 0 []) "error").getD Json.null)
      "step" = some (Json.str "unknown") := by
  rfl

/-- Claim C7 (amended): `decodeJWT` succeeds exactly when the token
splits into three dot-separated segments, the middle segment is inside
the domain of Node's forgiving base64 decoder (whitespace ignored, both
alphabets accepted, padding terminal), and the decoded bytes parse as
JSON — in which case the parsed claims object is returned.  Valid
base64url is sufficient but not necessary for the middle segment. -/
theorem claim_c7_decode_characterization (t : String) :
    ((decodeJWT t).isOk = true ↔
      ((jsSplit t '.').length = 3 ∧
        ∃ s, nodeBase64ToUtf8 (((jsSplit t '.').get? 1).getD "") = some s ∧
          (jsonParse s).isSome = true)) ∧
    (∀ j, decodeJWT t = Except.ok j →
      ∃ s, nodeBase64ToUtf8 (((jsSplit t '.').get? 1).getD "") = some s ∧
        jsonParse s = some j) := by
  constructor
  · have hoe : ∀ (m : String), (Except.error m : Except String Json).isOk = false :=
      fun _ => rfl
    have hok : ∀ (j : Json), (Except.ok j : Except String Json).isOk = true :=
      fun _ => rfl
    simp only [decodeJWT]
    split
    · rename_i hlen
      rw [hoe]
      simp [hlen]
    · rename_i hlen
      push_neg at hlen
      split
      · rename_i hb
        rw [hoe]
        constructor
        · intro hcontra
          exact absurd hcontra (by simp)
        · rintro ⟨_, s, hs, _⟩
          rw [hb] at hs
          exact Option.noConfusion hs
      · rename_i s hb
        split
        · rename_i j hj
          simp only [hok, true_iff]
          exact ⟨hlen, s, hb, by simp [hj]⟩
        · rename_i hj
          rw [hoe]
          constructor
          · intro hcontra
            exact absurd hcontra (by simp)
          · rintro ⟨_, s2, hs2, hsome⟩
            rw [hb] at hs2
            injection hs2 with hss
            subst hss
            rw [hj] at hsome
            exact absurd hsome (by simp)
  · intro j hj
    simp only [decodeJWT] at hj
    split at hj
    · simp at hj
    · split at hj
      · simp at hj
      · rename_i s hb
        split at hj
        · rename_i j2 hj2
          rw [Except.ok.injEq] at hj
          exact ⟨s, hb, hj ▸ hj2⟩
        · simp at hj

/-- Witness for the amended C7 on a well-formed token. -/
theorem claim_c7_witness :
    ∃ s, nodeBase64ToUtf8 (((jsSplit tok2 '.').get? 1).getD "") = some s ∧
      jsonParse s = some claimsTok2 :=
  (claim_c7_decode_characterization tok2).2 claimsTok2 (by rfl)

/-- Counterexample to C7 as stated: the middle segment `"e3 0"` is not
valid base64url (it contains a space), yet `decodeJWT` succeeds on
`"x.e3 0.y"`, because Node's base64 decoding ignores whitespace
(documented `Buffer` behaviour): the segment decodes to the bytes of
`"\x7b\x7d"`, which parse as the empty object. -/
theorem claim_c7_counterexample :
    (jsSplit "x.e3 0.y" '.').length = 3 ∧
    isBase64url "e3 0" = false ∧
    decodeJWT "x.e3 0.y" = Except.ok (Json.obj []) := by
  refine ⟨?_, ?_, ?_⟩ <;> rfl

/-- Index-shifted characterization of the query-component builder. -/
theorem signalQueryGo_get? (l : List String) (i j : Nat) :
    (signalQueryGo j l).get? i =
      (l.get? i).map (fun v => "p" ++ natToDec (j + i + 1) ++ "=" ++ encodeURIComponent v) := by
  induction l generalizing i j with
  | nil => simp [signalQueryGo]
  | cons hd tl ih =>
    cases i with
    | zero => simp [signalQueryGo]
    | succ n =>
      show (signalQueryGo (j + 1) tl).get? n =
        (tl.get? n).map (fun v => "p" ++ natToDec (j + (n + 1) + 1) ++ "=" ++ encodeURIComponent v)
      rw [ih n (j + 1)]
      have harith : j + 1 + n + 1 = j + (n + 1) + 1 := by omega
      rw [harith]

/-- Length of the query-component builder's output. -/
theorem signalQueryGo_length (l : List String) (j : Nat) :
    (signalQueryGo j l).length = l.length := by
  induction l generalizing j with
  | nil => rfl
  | cons hd tl ih => simp [signalQueryGo, ih]

/-- Lookup in a prefix. -/
theorem take_get? (l : List String) (n i : Nat) :
    (l.take n).get? i = if i < n then l.get? i else none := by
  induction l generalizing n i with
  | nil => simp
  | cons hd tl ih =>
    cases n with
    | zero => simp
    | succ m =>
      cases i with
      | zero => simp
      | succ k => simpa [Nat.succ_lt_succ_iff] using ih m k

/-- Claim C4: the signal URL's query string encodes parameter `i`
(1-based) as key `p<i>` with its URL-encoded value, in input order, for
at most the first nine parameters (later items silently dropped), and
an empty parameter list yields the bare path with no query string. -/
theorem claim_c4_query_serialization (ae : Option Json) (c : String) (ps : List String) :
    (ps = [] → buildSignalUrl ae c ps = signalPath ae c) ∧
    (ps ≠ [] → buildSignalUrl ae c ps =
      signalPath ae c ++ "?" ++ String.intercalate "&" (signalQueryParts ps)) ∧
    (signalQueryParts ps).length = min 9 ps.length ∧
    (∀ i, (signalQueryParts ps).get? i =
      if i < 9 then
        (ps.get? i).map (fun v => "p" ++ natToDec (i + 1) ++ "=" ++ encodeURIComponent v)
      else none) := by
  refine ⟨?_, ?_, ?_, fun i => ?_⟩
  · intro h
    subst h
    rfl
  · intro h
    have hlen : 0 < ps.length := List.length_pos.mpr h
    simp [buildSignalUrl, signalPath, hlen]
  · simp [signalQueryParts, signalQueryGo_length, List.length_take]
  · rw [signalQueryParts, signalQueryGo_get?, take_get?]
    by_cases h : i < 9 <;> simp [h]

/-- Witness for C4: eleven parameters produce exactly `p1..p9`; items
ten and eleven are dropped. -/
theorem claim_c4_witness :
    buildSignalUrl (some (Json.str "https://api.example.com")) "abc123" ps11 =
      "https://api.example.com/incontactapi/services/v33.0/interactions/abc123/signal?p1=a&p2=b&p3=c&p4=d&p5=e&p6=f&p7=g&p8=h&p9=i" :=
  ((claim_c4_query_serialization (some (Json.str "https://api.example.com")) "abc123" ps11).2.1
    (by decide)).trans (by rfl)

/-- On a cache whose token decodes and is not expired, the whole `try`
body reduces to: API-endpoint resolution, URL building, the signal call
and storage — no OpenID lookup and no token request. -/
theorem inner_valid_token (cfg : SignalConfig) (world : World) (now : Int)
    (ctx : List (String × Json)) (cache : Json) (tok : String) (claims : Json)
    (hc : assocGet "signal" ctx = some cache)
    (htr : truthy cache = true)
    (htok : jsGetField cache "token" = some (Json.str tok))
    (htne : tok ≠ "")
    (hdec : decodeJWT tok = Except.ok claims)
    (hexp : isTokenExpired claims now = false) :
    signalApiInner cfg world now (initialState ctx) =
      (match stepDiscovery world (jsGetField cache "apiEndpoint") (jsGetField claims "tenantId")
          (addLog (initialState ctx) "info" "Using cached valid token") with
       | Except.error es => Except.error es
       | Except.ok (ae1, st5) =>
         match stepSignal world cfg (stepBuildUrl cfg ae1 st5).1 (some (Json.str tok))
             (stepBuildUrl cfg ae1 st5).2 with
         | Except.error es => Except.error es
         | Except.ok (d, st7) => Except.ok (stepStore cfg d st7)) := by
  have hT : truthyOpt (assocGet "signal" (initialState ctx).ctx) = true := by
    simp only [initialState]
    rw [hc]
    simpa [truthyOpt] using htr
  have e1 : stepInit (initialState ctx) = initialState ctx := by
    simp [stepInit, hT]
  have e2 : cacheVal (initialState ctx) = cache := by
    simp [cacheVal, initialState, hc]
  have echeck : stepCheckToken now (jsGetField cache "token") (jsGetField cache "tenantId")
      (initialState ctx) =
      (false, jsGetField claims "tenantId",
        addLog (initialState ctx) "info" "Using cached valid token") := by
    simp only [stepCheckToken, htok, truthyOpt, truthy, jsDecodeJWT, hdec, hexp]
    simp [htne]
  simp only [signalApiInner]
  rw [e1, e2, echeck]
  simp only [stepOpenid, stepToken, htok]
  simp

/-- The catch handler issues no request. -/
theorem catchHandler_trace (e : JsErr) (st : InvState) :
    (catchHandler e st).trace = st.trace := by
  simp only [catchHandler, addLog, writeCacheField]
  split <;> rfl

/-- The URL built by step 6. -/
theorem stepBuildUrl_fst (cfg : SignalConfig) (ae : Option Json) (st : InvState) :
    (stepBuildUrl cfg ae st).1 = buildSignalUrl ae cfg.contactId cfg.parameters := by
  simp only [stepBuildUrl]
  split <;> rfl

/-- Step 6 issues no request. -/
theorem stepBuildUrl_trace (cfg : SignalConfig) (ae : Option Json) (st : InvState) :
    (stepBuildUrl cfg ae st).2.trace = st.trace := by
  simp only [stepBuildUrl]
  split <;> rfl

/-- Step 8 issues no request. -/
theorem stepStore_trace (cfg : SignalConfig) (d : Json) (st : InvState) :
    (stepStore cfg d st).trace = st.trace := by
  simp only [stepStore, addLog]
  split <;> rfl

/-- Claim C3 (amended): on a cache holding a decodable, non-expired
token, the run issues no openid-configuration GET and no token POST:
the only possible requests are the api-endpoint discovery GET — issued
exactly when no API endpoint is cached — followed by the signal POST. -/
theorem claim_c3_no_auth_calls (cfg : SignalConfig) (world : World) (now : Int)
    (ctx : List (String × Json)) (cache : Json) (tok : String) (claims : Json)
    (hc : assocGet "signal" ctx = some cache)
    (htr : truthy cache = true)
    (htok : jsGetField cache "token" = some (Json.str tok))
    (htne : tok ≠ "")
    (hdec : decodeJWT tok = Except.ok claims)
    (hexp : isTokenExpired claims now = false) :
    (truthyOpt (jsGetField cache "apiEndpoint") = true →
      (signalApiRun cfg world now ctx).trace =
        [signalRequestOf
          (buildSignalUrl (jsGetField cache "apiEndpoint") cfg.contactId cfg.parameters)
          (some (Json.str tok))]) ∧
    (truthyOpt (jsGetField cache "apiEndpoint") = false →
      (signalApiRun cfg world now ctx).trace =
        [HttpReq.get (discoveryUrlOf (jsGetField claims "tenantId"))] ∨
      ∃ ae, (signalApiRun cfg world now ctx).trace =
        [HttpReq.get (discoveryUrlOf (jsGetField claims "tenantId")),
         signalRequestOf (buildSignalUrl (some ae) cfg.contactId cfg.parameters)
           (some (Json.str tok))]) := by
  have hinner := inner_valid_token cfg world now ctx cache tok claims hc htr htok htne hdec hexp
  constructor
  · intro hae
    have hd : stepDiscovery world (jsGetField cache "apiEndpoint") (jsGetField claims "tenantId")
        (addLog (initialState ctx) "info" "Using cached valid token") =
        Except.ok (jsGetField cache "apiEndpoint",
          addLog (initialState ctx) "info" "Using cached valid token") := by
      simp [stepDiscovery, hae]
    unfold signalApiRun
    rw [hinner]
    simp only [hd, stepSignal, stepBuildUrl_fst]
    cases hw : world (HttpReq.post
        (buildSignalUrl (jsGetField cache "apiEndpoint") cfg.contactId cfg.parameters) "\x7b\x7d"
        [("Authorization", "Bearer " ++ jsDisplayOpt (some (Json.str tok))),
         ("Accept", "application/json")]) with
    | error f =>
      simp [hw, catchHandler_trace, recordReq, addLog, stepBuildUrl_trace, initialState,
        signalRequestOf]
    | ok d =>
      simp [hw, stepStore_trace, recordReq, addLog, stepBuildUrl_trace, initialState,
        signalRequestOf]
  · intro hae
    unfold signalApiRun
    rw [hinner]
    simp only [stepDiscovery, hae, Bool.not_eq_true, if_pos]
    cases hw : world (HttpReq.get (discoveryUrlOf (jsGetField claims "tenantId"))) with
    | error f =>
      left
      simp [hw, catchHandler_trace, recordReq, addLog, initialState]
    | ok d =>
      by_cases hbad : truthy d = false ∨ truthyOpt (jsGetField d "api_endpoint") = false
      · left
        simp [hw, hbad, catchHandler_trace, recordReq, addLog, initialState]
      · have hbadOrig := hbad
        push_neg at hbad
        obtain ⟨ae, haev⟩ : ∃ ae, jsGetField d "api_endpoint" = some ae := by
          cases hv : jsGetField d "api_endpoint" with
          | none =>
            rw [hv] at hbad
            exact absurd rfl hbad.2
          | some v => exact ⟨v, rfl⟩
        right
        refine ⟨ae, ?_⟩
        rw [haev] at hbadOrig
        simp only [hw, haev, if_neg hbadOrig, stepSignal, stepBuildUrl_fst]
        cases hw2 : world (HttpReq.post
            (buildSignalUrl (some ae) cfg.contactId cfg.parameters) "\x7b\x7d"
            [("Authorization", "Bearer " ++ jsDisplayOpt (some (Json.str tok))),
             ("Accept", "application/json")]) with
        | error f2 =>
          simp [hw2, catchHandler_trace, recordReq, addLog, stepBuildUrl_trace,
            writeCacheFieldOpt, initialState, signalRequestOf]
        | ok d2 =>
          simp [hw2, stepStore_trace, recordReq, addLog, stepBuildUrl_trace,
            writeCacheFieldOpt, initialState, signalRequestOf]

/-- Witness for the amended C3: valid cached token, no cached API
endpoint — the run makes no openid GET and no token POST. -/
theorem claim_c3_witness :
    (signalApiRun cfg2 world2 1760000000 [("signal", cacheC3)]).trace =
      [HttpReq.get (discoveryUrlOf (jsGetField claimsTok2 "tenantId"))] ∨
    ∃ ae, (signalApiRun cfg2 world2 1760000000 [("signal", cacheC3)]).trace =
      [HttpReq.get (discoveryUrlOf (jsGetField claimsTok2 "tenantId")),
       signalRequestOf (buildSignalUrl (some ae) cfg2.contactId cfg2.parameters)
         (some (Json.str tok2))] :=
  (claim_c3_no_auth_calls cfg2 world2 1760000000 [("signal", cacheC3)] cacheC3 tok2 claimsTok2
    (by rfl) (by rfl) (by rfl) (by decide) (by rfl) (by rfl)).2 (by rfl)

/-- Counterexample to C3 as stated: with a valid non-expired cached
token but no cached API endpoint, the pipeline still performs one
discovery network call — the GET to the well-known cxone-configuration
URL — before the signal call, so "zero discovery network calls" fails. -/
theorem claim_c3_counterexample :
    (signalApiRun cfg2 world2 1760000000 [("signal", cacheC3)]).trace =
      [HttpReq.get (discoveryUrlOf (some (Json.str "tenant1"))),
       HttpReq.post
         "https://api.example.com/incontactapi/services/v33.0/interactions/abc123/signal?p1=x"
         "\x7b\x7d"
         [("Authorization", "Bearer " ++ tok2), ("Accept", "application/json")]] := by
  rfl

/-- Step 6 makes no input write. -/
theorem stepBuildUrl_inputs (cfg : SignalConfig) (ae : Option Json) (st : InvState) :
    (stepBuildUrl cfg ae st).2.inputWrites = st.inputWrites := by
  simp only [stepBuildUrl]
  split <;> rfl

/-- Claim C9 (amended): on a successful signal call the value stored
under the storage key is `signalResponse.data || signalResponse`: the
response body itself when the body is truthy, and the whole axios
response object when the body is falsy (empty string, `null`, `false`,
`0`). -/
theorem claim_c9_stored_value (cfg : SignalConfig) (world : World) (now : Int)
    (ctx : List (String × Json)) (cache : Json) (tok : String) (claims : Json) (d : Json)
    (hc : assocGet "signal" ctx = some cache)
    (htr : truthy cache = true)
    (htok : jsGetField cache "token" = some (Json.str tok))
    (htne : tok ≠ "")
    (hdec : decodeJWT tok = Except.ok claims)
    (hexp : isTokenExpired claims now = false)
    (hae : truthyOpt (jsGetField cache "apiEndpoint") = true)
    (hw : world (HttpReq.post
        (buildSignalUrl (jsGetField cache "apiEndpoint") cfg.contactId cfg.parameters) "\x7b\x7d"
        [("Authorization", "Bearer " ++ jsDisplayOpt (some (Json.str tok))),
         ("Accept", "application/json")]) = Except.ok d) :
    (cfg.storageType = "context" →
      assocGet cfg.storageKey (signalApiRun cfg world now ctx).ctx = some (jsResponseData d)) ∧
    (cfg.storageType ≠ "context" →
      (signalApiRun cfg world now ctx).inputWrites = [(cfg.storageKey, jsResponseData d)]) := by
  have hinner := inner_valid_token cfg world now ctx cache tok claims hc htr htok htne hdec hexp
  have hd : stepDiscovery world (jsGetField cache "apiEndpoint") (jsGetField claims "tenantId")
      (addLog (initialState ctx) "info" "Using cached valid token") =
      Except.ok (jsGetField cache "apiEndpoint",
        addLog (initialState ctx) "info" "Using cached valid token") := by
    simp [stepDiscovery, hae]
  unfold signalApiRun
  rw [hinner]
  simp only [hd, stepSignal, stepBuildUrl_fst, hw]
  constructor
  · intro hst
    simp [stepStore, hst, assocGet_assocSet_self, addLog]
  · intro hst
    simp [stepStore, hst, addLog, recordReq, stepBuildUrl_inputs, initialState]

/-- Witness for the amended C9: a falsy (empty-string) body makes the
run store the response object rather than the body. -/
theorem claim_c9_witness :
    assocGet "signalResponse" (signalApiRun cfg2 worldC9 1760000000 [("signal", cacheC9)]).ctx =
      some (jsResponseData (Json.str "")) :=
  (claim_c9_stored_value cfg2 worldC9 1760000000 [("signal", cacheC9)] cacheC9 tok2 claimsTok2
    (Json.str "") (by rfl) (by rfl) (by rfl) (by decide) (by rfl) (by rfl) (by rfl) (by rfl)).1
    (by rfl)

/-- Counterexample to C9 as stated: when the remote's response body is
the empty string (falsy), the stored value is the axios response
object, not the body verbatim. -/
theorem claim_c9_counterexample :
    assocGet "signalResponse" (signalApiRun cfg2 worldC9 1760000000 [("signal", cacheC9)]).ctx =
      some (respObjJson (Json.str "")) ∧
    respObjJson (Json.str "") ≠ Json.str "" := by
  constructor
  · rfl
  · intro h
    exact Json.noConfusion h

/-- Claim C5: starting with no cache, when discovery succeeds but the
token response body lacks a truthy `access_token`, the invocation fails
with the token-request error, the cache's `token` field remains unset,
and the `tokenEndpoint` discovered earlier in the same invocation is
persisted in the cache for the next attempt. -/
theorem claim_c5_token_missing (cfg : SignalConfig) (world : World) (now : Int)
    (ctx : List (String × Json)) (dOpen dTok te : Json)
    (hsig : assocGet "signal" ctx = none)
    (hOpen : world (HttpReq.get openidConfigUrl) = Except.ok dOpen)
    (hTe : jsGetField dOpen "token_endpoint" = some te)
    (hTeTr : truthy te = true)
    (hTok : world (tokenRequestOf cfg (some te)) = Except.ok dTok)
    (hBad : ¬ truthy dTok ∨ ¬ truthyOpt (jsGetField dTok "access_token")) :
    cacheField (signalApiRun cfg world now ctx) "token" = none ∧
    cacheField (signalApiRun cfg world now ctx) "tokenEndpoint" = some te ∧
    cacheField (signalApiRun cfg world now ctx) "error" =
      some (errDetailsJson (jsErrorThrow "Failed to retrieve access token from response")) := by
  have hT : truthyOpt (assocGet "signal" ctx) = false := by
    simp [hsig, truthyOpt]
  have e1 : stepInit (initialState ctx) = initialState (assocSet "signal" (Json.obj []) ctx) := by
    simp [stepInit, initialState, hT]
  have e2 : cacheVal (initialState (assocSet "signal" (Json.obj []) ctx)) = Json.obj [] := by
    simp [cacheVal, initialState, assocGet_assocSet_self]
  have hTrOpen : truthy dOpen = true := truthy_of_getField dOpen "token_endpoint" te hTe
  have hGood : ¬ (¬ truthy dOpen ∨ ¬ truthyOpt (jsGetField dOpen "token_endpoint")) := by
    push_neg
    exact ⟨hTrOpen, by simp [hTe, truthyOpt, hTeTr]⟩
  simp only [tokenRequestOf] at hTok
  have hnil : ∀ k, jsGetField (Json.obj []) k = none := fun _ => rfl
  have hTON : truthyOpt none = false := rfl
  have hTOte : truthyOpt (some te) = true := by simp [truthyOpt, hTeTr]
  have hBad' : truthy dTok = false ∨ truthyOpt (jsGetField dTok "access_token") = false := by
    rcases hBad with h | h
    · exact Or.inl (by simpa using h)
    · exact Or.inr (by simpa using h)
  unfold signalApiRun
  simp only [signalApiInner, e1, e2]
  simp [hnil, stepCheckToken, stepOpenid, stepToken, hTON, hTOte, hOpen, hTe, hTrOpen, hTok,
    hBad']
  simp [catchHandler, writeCacheField, writeCacheFieldOpt, addLog, recordReq, initialState,
    cacheVal, cacheField, jsSetField, jsSetFieldOpt, jsGetField, truthyOpt, truthy,
    assocGet_assocSet_self, assocGet_assocSet, assocGet]

/-- Witness for C5: empty cache, discovery succeeds, token response has
only a `scope` field. -/
theorem claim_c5_witness :
    cacheField (signalApiRun cfg2 worldC5 0 []) "token" = none ∧
    cacheField (signalApiRun cfg2 worldC5 0 []) "tokenEndpoint" =
      some (Json.str "https://auth.example.com/token") :=
  let h := claim_c5_token_missing cfg2 worldC5 0 []
    (Json.obj [("token_endpoint", Json.str "https://auth.example.com/token")])
    (Json.obj [("scope", Json.str "none")])
    (Json.str "https://auth.example.com/token")
    (by rfl) (by rfl) (by rfl) (by rfl) (by rfl)
    (Or.inr (by simp [jsGetField, assocGet, truthyOpt]))
  ⟨h.1, h.2.1⟩

/-- Removing one key leaves the others' lookups unchanged. -/
theorem assocGet_assocRemove_ne (k k2 : String) (l : List (String × Json)) (h : k2 ≠ k) :
    assocGet k (assocRemove k2 l) = assocGet k l := by
  induction l with
  | nil => rfl
  | cons hd tl ih =>
    obtain ⟨k3, v3⟩ := hd
    by_cases h3 : k3 = k2
    · subst h3
      simp [assocRemove, assocGet, h, ih]
    · by_cases h4 : k3 = k
      · subst h4
        simp [assocRemove, assocGet, h3, ih]
      · simp [assocRemove, assocGet, h3, h4, ih]

/-- Writing one property leaves the others' reads unchanged. -/
theorem jsGetField_jsSetFieldOpt_ne (c : Json) (k k2 : String) (v : Option Json)
    (h : k ≠ k2) :
    jsGetField (jsSetFieldOpt c k v) k2 = jsGetField c k2 := by
  cases v with
  | none =>
    cases c <;>
      simp [jsSetFieldOpt, jsSetField, jsGetField, assocGet_assocRemove_ne k2 k _ h]
  | some x =>
    cases c <;>
      simp [jsSetFieldOpt, jsSetField, jsGetField, assocGet_assocSet_ne k2 k _ _ h]

/-- Writing one cache field leaves the others unchanged. -/
theorem cacheField_writeCacheFieldOpt_ne (st : InvState) (k : String) (v : Option Json)
    (k2 : String) (h : k ≠ k2) :
    cacheField (writeCacheFieldOpt st k v) k2 = cacheField st k2 := by
  simp [cacheField, writeCacheFieldOpt, cacheVal, assocGet_assocSet_self,
    jsGetField_jsSetFieldOpt_ne _ _ _ _ h]

/-- Step 1 does not touch the context object. -/
theorem stepCheckToken_ctx (now : Int) (token0 tenant0 : Option Json) (st : InvState) :
    (stepCheckToken now token0 tenant0 st).2.2.ctx = st.ctx := by
  simp only [stepCheckToken]
  split
  · split
    · split <;> rfl
    · rfl
  · rfl

/-- Step 6 does not touch the context object. -/
theorem stepBuildUrl_ctx (cfg : SignalConfig) (ae : Option Json) (st : InvState) :
    (stepBuildUrl cfg ae st).2.ctx = st.ctx := by
  simp only [stepBuildUrl]
  split <;> rfl

/-- Step 7 does not touch the context object, in either outcome. -/
theorem stepSignal_ctx (world : World) (cfg : SignalConfig) (url : String)
    (tok : Option Json) (st : InvState) :
    (∀ d st1, stepSignal world cfg url tok st = Except.ok (d, st1) → st1.ctx = st.ctx) ∧
    (∀ e st1, stepSignal world cfg url tok st = Except.error (e, st1) → st1.ctx = st.ctx) := by
  constructor
  · intro d st1 h
    simp only [stepSignal] at h
    split at h
    · simp at h
    · rw [Except.ok.injEq, Prod.mk.injEq] at h
      rw [← h.2]
      rfl
  · intro e st1 h
    simp only [stepSignal] at h
    split at h
    · rw [Except.error.injEq, Prod.mk.injEq] at h
      rw [← h.2]
      rfl
    · simp at h

/-- Step 8 leaves the cache object itself unchanged when the storage
key is not the cache key. -/
theorem stepStore_cacheVal (cfg : SignalConfig) (d : Json) (st : InvState)
    (h : cfg.storageKey ≠ "signal") :
    cacheVal (stepStore cfg d st) = cacheVal st := by
  simp only [stepStore, addLog]
  split
  · simp [cacheVal, assocGet_assocSet_ne "signal" cfg.storageKey _ _ h]
  · rfl

/-- The catch handler changes no cache field other than `error`. -/
theorem catchHandler_cacheField_ne (e : JsErr) (st : InvState)
    (fields : List (String × Json)) (k : String)
    (hf : assocGet "signal" st.ctx = some (Json.obj fields)) (hk : k ≠ "error") :
    cacheField (catchHandler e st) k = cacheField st k := by
  have htr : truthyOpt (assocGet "signal" st.ctx) = true := by rw [hf]; rfl
  simp only [catchHandler, htr, if_true, addLog, writeCacheField, cacheField, cacheVal,
    assocGet_assocSet_self, Option.getD_some]
  rw [hf]
  simp [jsSetField, jsGetField, assocGet_assocSet_ne k "error" _ _ (Ne.symm hk)]

/-- Steps 3-4 change no cache field other than `token` and `tenantId`,
in either outcome. -/
theorem stepToken_cacheField (cfg : SignalConfig) (world : World) (needNew : Bool)
    (te : Option Json) (token0 tenant1 : Option Json) (st : InvState) (k : String)
    (hk1 : k ≠ "token") (hk2 : k ≠ "tenantId") :
    (∀ tok ten st1, stepToken cfg world needNew te token0 tenant1 st = Except.ok (tok, ten, st1) →
      cacheField st1 k = cacheField st k) ∧
    (∀ e st1, stepToken cfg world needNew te token0 tenant1 st = Except.error (e, st1) →
      cacheField st1 k = cacheField st k) := by
  have haddLog : ∀ (st2 : InvState) (lvl m : String),
      cacheField (addLog st2 lvl m) k = cacheField st2 k := fun _ _ _ => rfl
  have hrec : ∀ (st2 : InvState) (r : HttpReq),
      cacheField (recordReq st2 r) k = cacheField st2 k := fun _ _ => rfl
  have hwTok : ∀ (st2 : InvState) (v : Option Json),
      cacheField (writeCacheFieldOpt st2 "token" v) k = cacheField st2 k :=
    fun st2 v => cacheField_writeCacheFieldOpt_ne st2 "token" v k (Ne.symm hk1)
  have hwTen : ∀ (st2 : InvState) (v : Option Json),
      cacheField (writeCacheFieldOpt st2 "tenantId" v) k = cacheField st2 k :=
    fun st2 v => cacheField_writeCacheFieldOpt_ne st2 "tenantId" v k (Ne.symm hk2)
  constructor
  · intro tok ten st1 h
    simp only [stepToken] at h
    split at h
    · split at h
      · simp at h
      · split at h
        · simp at h
        · split at h
          · simp at h
          · rw [Except.ok.injEq, Prod.mk.injEq, Prod.mk.injEq] at h
            rw [← h.2.2, haddLog, hwTen, haddLog, hwTok, hrec, haddLog]
    · rw [Except.ok.injEq, Prod.mk.injEq, Prod.mk.injEq] at h
      rw [← h.2.2]
  · intro e st1 h
    simp only [stepToken] at h
    split at h
    · split at h
      · rw [Except.error.injEq, Prod.mk.injEq] at h
        rw [← h.2, hrec, haddLog]
      · split at h
        · rw [Except.error.injEq, Prod.mk.injEq] at h
          rw [← h.2, hrec, haddLog]
        · split at h
          · rw [Except.error.injEq, Prod.mk.injEq] at h
            rw [← h.2, haddLog, hwTok, hrec, haddLog]
          · simp at h
    · simp at h

/-- Removing a key makes its lookup undefined. -/
theorem assocGet_assocRemove_self (k : String) (l : List (String × Json)) :
    assocGet k (assocRemove k l) = none := by
  induction l with
  | nil => rfl
  | cons hd tl ih =>
    obtain ⟨k3, v3⟩ := hd
    by_cases h3 : k3 = k
    · simp [assocRemove, h3, ih]
    · simp [assocRemove, assocGet, h3, ih]

/-- Writing a cache field on an object-shaped cache makes that field
read back the written value (`undefined` removes it). -/
theorem cacheField_writeCacheFieldOpt_self (st : InvState) (fields : List (String × Json))
    (k : String) (v : Option Json)
    (hf : assocGet "signal" st.ctx = some (Json.obj fields)) :
    cacheField (writeCacheFieldOpt st k v) k = v := by
  cases v with
  | none =>
    simp [cacheField, writeCacheFieldOpt, cacheVal, assocGet_assocSet_self, hf,
      jsSetFieldOpt, jsGetField, assocGet_assocRemove_self]
  | some x =>
    simp [cacheField, writeCacheFieldOpt, cacheVal, assocGet_assocSet_self, hf,
      jsSetFieldOpt, jsSetField, jsGetField]

/-- Step 2 changes no cache field other than `tokenEndpoint`, in either
outcome. -/
theorem stepOpenid_cacheField (world : World) (needNew : Bool) (te0 : Option Json)
    (st : InvState) (k : String) (hk : k ≠ "tokenEndpoint") :
    (∀ te1 st1, stepOpenid world needNew te0 st = Except.ok (te1, st1) →
      cacheField st1 k = cacheField st k) ∧
    (∀ e st1, stepOpenid world needNew te0 st = Except.error (e, st1) →
      cacheField st1 k = cacheField st k) := by
  have haddLog : ∀ (st2 : InvState) (lvl m : String),
      cacheField (addLog st2 lvl m) k = cacheField st2 k := fun _ _ _ => rfl
  have hrec : ∀ (st2 : InvState) (r : HttpReq),
      cacheField (recordReq st2 r) k = cacheField st2 k := fun _ _ => rfl
  have hwTe : ∀ (st2 : InvState) (v : Option Json),
      cacheField (writeCacheFieldOpt st2 "tokenEndpoint" v) k = cacheField st2 k :=
    fun st2 v => cacheField_writeCacheFieldOpt_ne st2 "tokenEndpoint" v k (Ne.symm hk)
  constructor
  · intro te1 st1 h
    simp only [stepOpenid] at h
    split at h
    · split at h
      · simp at h
      · split at h
        · simp at h
        · rw [Except.ok.injEq, Prod.mk.injEq] at h
          rw [← h.2, haddLog, hwTe, hrec, haddLog]
    · rw [Except.ok.injEq, Prod.mk.injEq] at h
      rw [← h.2]
  · intro e st1 h
    simp only [stepOpenid] at h
    split at h
    · split at h
      · rw [Except.error.injEq, Prod.mk.injEq] at h
        rw [← h.2, hrec, haddLog]
      · split at h
        · rw [Except.error.injEq, Prod.mk.injEq] at h
          rw [← h.2, hrec, haddLog]
        · simp at h
    · simp at h

/-- Step 5 changes no cache field other than `apiEndpoint`, in either
outcome. -/
theorem stepDiscovery_cacheField (world : World) (ae0 tenant : Option Json)
    (st : InvState) (k : String) (hk : k ≠ "apiEndpoint") :
    (∀ ae1 st1, stepDiscovery world ae0 tenant st = Except.ok (ae1, st1) →
      cacheField st1 k = cacheField st k) ∧
    (∀ e st1, stepDiscovery world ae0 tenant st = Except.error (e, st1) →
      cacheField st1 k = cacheField st k) := by
  have haddLog : ∀ (st2 : InvState) (lvl m : String),
      cacheField (addLog st2 lvl m) k = cacheField st2 k := fun _ _ _ => rfl
  have hrec : ∀ (st2 : InvState) (r : HttpReq),
      cacheField (recordReq st2 r) k = cacheField st2 k := fun _ _ => rfl
  have hwAe : ∀ (st2 : InvState) (v : Option Json),
      cacheField (writeCacheFieldOpt st2 "apiEndpoint" v) k = cacheField st2 k :=
    fun st2 v => cacheField_writeCacheFieldOpt_ne st2 "apiEndpoint" v k (Ne.symm hk)
  constructor
  · intro ae1 st1 h
    simp only [stepDiscovery] at h
    split at h
    · split at h
      · simp at h
      · split at h
        · simp at h
        · rw [Except.ok.injEq, Prod.mk.injEq] at h
          rw [← h.2, haddLog, hwAe, hrec, haddLog]
    · rw [Except.ok.injEq, Prod.mk.injEq] at h
      rw [← h.2]
  · intro e st1 h
    simp only [stepDiscovery] at h
    split at h
    · split at h
      · rw [Except.error.injEq, Prod.mk.injEq] at h
        rw [← h.2, hrec, haddLog]
      · split at h
        · rw [Except.error.injEq, Prod.mk.injEq] at h
          rw [← h.2, hrec, haddLog]
        · simp at h
    · simp at h

/-- After the line-273 token write followed by the line-279 tenant-id
write, the token field reads back the written token. -/
theorem cacheField_tokenWrite_fst (st : InvState) (fields : List (String × Json))
    (v : Json) (x : Option Json) (m1 : String)
    (hf : assocGet "signal" st.ctx = some (Json.obj fields)) :
    cacheField (writeCacheFieldOpt (addLog (writeCacheFieldOpt st "token" (some v)) "info" m1)
      "tenantId" x) "token" = some v := by
  have haddLog : ∀ (st2 : InvState) (lvl m k : String),
      cacheField (addLog st2 lvl m) k = cacheField st2 k := fun _ _ _ _ => rfl
  rw [cacheField_writeCacheFieldOpt_ne _ "tenantId" x "token" (by decide), haddLog]
  exact cacheField_writeCacheFieldOpt_self st fields "token" (some v) hf

/-- After the line-273 token write followed by the line-279 tenant-id
write, the tenant-id field reads back what was written there. -/
theorem cacheField_tokenWrite_snd (st : InvState) (fields : List (String × Json))
    (v : Json) (x : Option Json) (m1 : String)
    (hf : assocGet "signal" st.ctx = some (Json.obj fields)) :
    cacheField (writeCacheFieldOpt (addLog (writeCacheFieldOpt st "token" (some v)) "info" m1)
      "tenantId" x) "tenantId" = x := by
  obtain ⟨fields2, hf2⟩ :=
    (preserves_writeCacheFieldOpt st "token" (some v)).shapeMono ⟨fields, hf⟩
  exact cacheField_writeCacheFieldOpt_self _ fields2 "tenantId" x hf2

/-- The write discipline of a forced refresh (lines 242-281), on an
object-shaped cache: a failure before the `signalCache.token`
assignment of line 273 leaves both `token` and `tenantId` untouched; a
failure at the decode of line 277 has already overwritten `token` with
the received access token, leaving `tenantId` untouched; and a success
overwrites both, the tenant id taken from the freshly decoded token. -/
theorem stepToken_refresh_writes (cfg : SignalConfig) (world : World)
    (te token0 tenant1 : Option Json) (st : InvState) (fields : List (String × Json))
    (hf : assocGet "signal" st.ctx = some (Json.obj fields)) :
    (∀ e st1, stepToken cfg world true te token0 tenant1 st = Except.error (e, st1) →
      (cacheField st1 "token" = cacheField st "token" ∧
       cacheField st1 "tenantId" = cacheField st "tenantId") ∨
      (∃ v m, truthy v = true ∧ cacheField st1 "token" = some v ∧
        jsDecodeJWT (some v) = Except.error m ∧
        cacheField st1 "tenantId" = cacheField st "tenantId")) ∧
    (∀ tok1 ten1 st1,
      stepToken cfg world true te token0 tenant1 st = Except.ok (tok1, ten1, st1) →
      ∃ v claims2, truthy v = true ∧ cacheField st1 "token" = some v ∧
        jsDecodeJWT (some v) = Except.ok claims2 ∧
        cacheField st1 "tenantId" = jsGetField claims2 "tenantId") := by
  have haddLog : ∀ (st2 : InvState) (lvl m k : String),
      cacheField (addLog st2 lvl m) k = cacheField st2 k := fun _ _ _ _ => rfl
  have hrec : ∀ (st2 : InvState) (r : HttpReq) (k : String),
      cacheField (recordReq st2 r) k = cacheField st2 k := fun _ _ _ => rfl
  constructor
  · intro e st1 h
    simp only [stepToken, reduceIte] at h
    split at h
    · rw [Except.error.injEq, Prod.mk.injEq] at h
      rw [← h.2]
      exact Or.inl ⟨rfl, rfl⟩
    · rename_i data hw
      split at h
      · rw [Except.error.injEq, Prod.mk.injEq] at h
        rw [← h.2]
        exact Or.inl ⟨rfl, rfl⟩
      · rename_i hgood
        push_neg at hgood
        cases hv : jsGetField data "access_token" with
        | none =>
          rw [hv] at hgood
          simp [truthyOpt] at hgood
        | some v =>
          rw [hv] at hgood h
          have hvTr : truthy v = true := by simpa [truthyOpt] using hgood.2
          split at h
          · rename_i m hdk
            rw [Except.error.injEq, Prod.mk.injEq] at h
            rw [← h.2]
            refine Or.inr ⟨v, m, hvTr, ?_, hdk, ?_⟩
            · rw [haddLog]
              exact cacheField_writeCacheFieldOpt_self _ fields "token" (some v) hf
            · rw [haddLog, cacheField_writeCacheFieldOpt_ne _ "token" (some v) "tenantId"
                (by decide), hrec, haddLog]
          · simp at h
  · intro tok1 ten1 st1 h
    simp only [stepToken, reduceIte] at h
    split at h
    · simp at h
    · rename_i data hw
      split at h
      · simp at h
      · rename_i hgood
        push_neg at hgood
        cases hv : jsGetField data "access_token" with
        | none =>
          rw [hv] at hgood
          simp [truthyOpt] at hgood
        | some v =>
          rw [hv] at hgood h
          have hvTr : truthy v = true := by simpa [truthyOpt] using hgood.2
          split at h
          · simp at h
          · rename_i dec hdk
            rw [Except.ok.injEq, Prod.mk.injEq, Prod.mk.injEq] at h
            rw [← h.2.2]
            refine ⟨v, dec, hvTr, ?_, hdk, ?_⟩
            · rw [haddLog]
              exact cacheField_tokenWrite_fst _ fields v _ _ hf
            · rw [haddLog]
              exact cacheField_tokenWrite_snd _ fields v _ _ hf

/-- On a cache holding truthy endpoints, steps 2 and 5 are identities:
the `try` body is just the token check, the (possible) token refresh,
the signal call and storage. -/
theorem inner_endpoints_cached (cfg : SignalConfig) (world : World) (now : Int)
    (ctx : List (String × Json)) (cache : Json)
    (hc : assocGet "signal" ctx = some cache)
    (htr : truthy cache = true)
    (hteT : truthyOpt (jsGetField cache "tokenEndpoint") = true)
    (haeT : truthyOpt (jsGetField cache "apiEndpoint") = true) :
    signalApiInner cfg world now (initialState ctx) =
      (match stepToken cfg world
          (stepCheckToken now (jsGetField cache "token") (jsGetField cache "tenantId")
            (initialState ctx)).1
          (jsGetField cache "tokenEndpoint") (jsGetField cache "token")
          (stepCheckToken now (jsGetField cache "token") (jsGetField cache "tenantId")
            (initialState ctx)).2.1
          (stepCheckToken now (jsGetField cache "token") (jsGetField cache "tenantId")
            (initialState ctx)).2.2 with
       | Except.error es => Except.error es
       | Except.ok (tok1, _tenant2, st4) =>
         match stepSignal world cfg
             (stepBuildUrl cfg (jsGetField cache "apiEndpoint") st4).1 tok1
             (stepBuildUrl cfg (jsGetField cache "apiEndpoint") st4).2 with
         | Except.error es => Except.error es
         | Except.ok (d, st7) => Except.ok (stepStore cfg d st7)) := by
  have hT : truthyOpt (assocGet "signal" (initialState ctx).ctx) = true := by
    simp [initialState, hc, truthyOpt, htr]
  have e1 : stepInit (initialState ctx) = initialState ctx := by
    simp [stepInit, hT]
  have e2 : cacheVal (initialState ctx) = cache := by
    simp [cacheVal, initialState, hc]
  have eopen : ∀ (n : Bool) (st : InvState),
      stepOpenid world n (jsGetField cache "tokenEndpoint") st =
        Except.ok (jsGetField cache "tokenEndpoint", st) := by
    intro n st
    simp [stepOpenid, hteT]
  have edisc : ∀ (t : Option Json) (st : InvState),
      stepDiscovery world (jsGetField cache "apiEndpoint") t st =
        Except.ok (jsGetField cache "apiEndpoint", st) := by
    intro t st
    simp [stepDiscovery, haeT]
  simp only [signalApiInner, e1, e2, eopen, edisc]

/-- Claim C8 (amended): expiry detection invalidates nothing and the
cache never deletes `token` or `tenantId`.  During a refresh the token
field is overwritten as soon as a truthy `access_token` arrives (line
273) and `tenantId` only after that token decodes (line 279), so after
any invocation that found the cached token expired the cache holds one
of: the stale token/tenantId pair unchanged (the refresh failed before
an access token was stored), the received but undecodable access token
next to the stale `tenantId` (the refresh failed at the decode), or the
new token together with the tenant id decoded from it.  And
`tokenEndpoint`/`apiEndpoint`, once set to truthy values, are never
invalidated by an invocation (both parts stated for a storage key other
than the cache key itself). -/
theorem claim_c8_token_lifecycle :
    (∀ (cfg : SignalConfig) (world : World) (now : Int) (ctx : List (String × Json))
       (fields : List (String × Json)) (tok : String) (claims : Json),
      assocGet "signal" ctx = some (Json.obj fields) →
      assocGet "token" fields = some (Json.str tok) →
      tok ≠ "" →
      decodeJWT tok = Except.ok claims →
      isTokenExpired claims now = true →
      cfg.storageKey ≠ "signal" →
      (cacheField (signalApiRun cfg world now ctx) "token" = some (Json.str tok) ∧
       cacheField (signalApiRun cfg world now ctx) "tenantId" = assocGet "tenantId" fields) ∨
      (∃ v m, truthy v = true ∧
       cacheField (signalApiRun cfg world now ctx) "token" = some v ∧
       jsDecodeJWT (some v) = Except.error m ∧
       cacheField (signalApiRun cfg world now ctx) "tenantId" = assocGet "tenantId" fields) ∨
      (∃ v claims2, truthy v = true ∧
       cacheField (signalApiRun cfg world now ctx) "token" = some v ∧
       jsDecodeJWT (some v) = Except.ok claims2 ∧
       cacheField (signalApiRun cfg world now ctx) "tenantId" =
         jsGetField claims2 "tenantId")) ∧
    (∀ (cfg : SignalConfig) (world : World) (now : Int) (ctx : List (String × Json))
       (fields : List (String × Json)) (te ae : Json),
      assocGet "signal" ctx = some (Json.obj fields) →
      assocGet "tokenEndpoint" fields = some te → truthy te = true →
      assocGet "apiEndpoint" fields = some ae → truthy ae = true →
      cfg.storageKey ≠ "signal" →
      cacheField (signalApiRun cfg world now ctx) "tokenEndpoint" = some te ∧
      cacheField (signalApiRun cfg world now ctx) "apiEndpoint" = some ae) := by
  constructor
  · intro cfg world now ctx fields tok claims hc htok htne hdec hexp hsk
    have hT : truthyOpt (assocGet "signal" (initialState ctx).ctx) = true := by
      simp [initialState, hc, truthyOpt, truthy]
    have e1 : stepInit (initialState ctx) = initialState ctx := by
      simp [stepInit, hT]
    have e2 : cacheVal (initialState ctx) = Json.obj fields := by
      simp [cacheVal, initialState, hc]
    have hgtok : jsGetField (Json.obj fields) "token" = some (Json.str tok) := by
      simp [jsGetField, htok]
    have hgten : jsGetField (Json.obj fields) "tenantId" = assocGet "tenantId" fields := by
      simp [jsGetField]
    have hTOtok : truthyOpt (some (Json.str tok)) = true := by
      simp [truthyOpt, truthy, htne]
    have echeck : stepCheckToken now (some (Json.str tok))
        (jsGetField (Json.obj fields) "tenantId") (initialState ctx) =
        (true, jsGetField (Json.obj fields) "tenantId",
         addLog (initialState ctx) "info" "Cached token expired, fetching new token") := by
      simp [stepCheckToken, hTOtok, jsDecodeJWT, hdec, hexp]
    have hshape2 : assocGet "signal" (addLog (initialState ctx) "info"
        "Cached token expired, fetching new token").ctx = some (Json.obj fields) := hc
    unfold signalApiRun
    simp only [signalApiInner, e1, e2, hgtok, echeck]
    cases hop : stepOpenid world true (jsGetField (Json.obj fields) "tokenEndpoint")
        (addLog (initialState ctx) "info" "Cached token expired, fetching new token") with
    | error es =>
      obtain ⟨e, st1⟩ := es
      obtain ⟨fields1, hf1⟩ :=
        ((preserves_stepOpenid world true _ _).2 e st1 hop).shapeMono ⟨fields, hshape2⟩
      have ht1 : cacheField st1 "token" = some (Json.str tok) := by
        rw [(stepOpenid_cacheField world true _ _ "token" (by decide)).2 e st1 hop]
        simp [cacheField, cacheVal, addLog, initialState, hc, jsGetField, htok]
      have hten1 : cacheField st1 "tenantId" = assocGet "tenantId" fields := by
        rw [(stepOpenid_cacheField world true _ _ "tenantId" (by decide)).2 e st1 hop]
        simp [cacheField, cacheVal, addLog, initialState, hc, jsGetField]
      refine Or.inl ⟨?_, ?_⟩
      · simp only [catchHandler_cacheField_ne e st1 fields1 "token" hf1 (by decide), ht1]
      · simp only [catchHandler_cacheField_ne e st1 fields1 "tenantId" hf1 (by decide), hten1]
    | ok res =>
      obtain ⟨te1, st3⟩ := res
      obtain ⟨fields3, hf3⟩ :=
        ((preserves_stepOpenid world true _ _).1 te1 st3 hop).shapeMono ⟨fields, hshape2⟩
      have ht3 : cacheField st3 "token" = some (Json.str tok) := by
        rw [(stepOpenid_cacheField world true _ _ "token" (by decide)).1 te1 st3 hop]
        simp [cacheField, cacheVal, addLog, initialState, hc, jsGetField, htok]
      have hten3 : cacheField st3 "tenantId" = assocGet "tenantId" fields := by
        rw [(stepOpenid_cacheField world true _ _ "tenantId" (by decide)).1 te1 st3 hop]
        simp [cacheField, cacheVal, addLog, initialState, hc, jsGetField]
      have hTW := stepToken_refresh_writes cfg world te1 (some (Json.str tok))
        (jsGetField (Json.obj fields) "tenantId") st3 fields3 hf3
      cases htk : stepToken cfg world true te1 (some (Json.str tok))
          (jsGetField (Json.obj fields) "tenantId") st3 with
      | error es =>
        obtain ⟨e, st1⟩ := es
        obtain ⟨fields1, hf1⟩ :=
          ((preserves_stepToken cfg world true te1 _ _ st3).2 e st1 htk).shapeMono
            ⟨fields3, hf3⟩
        rcases hTW.1 e st1 htk with ⟨ht, hten⟩ | ⟨v, m, hvTr, htv, hdk, hten⟩
        · refine Or.inl ⟨?_, ?_⟩
          · simp only [htk, catchHandler_cacheField_ne e st1 fields1 "token" hf1 (by decide),
              ht, ht3]
          · simp only [htk,
              catchHandler_cacheField_ne e st1 fields1 "tenantId" hf1 (by decide),
              hten, hten3]
        · refine Or.inr (Or.inl ⟨v, m, hvTr, ?_, hdk, ?_⟩)
          · simp only [htk, catchHandler_cacheField_ne e st1 fields1 "token" hf1 (by decide),
              htv]
          · simp only [htk,
              catchHandler_cacheField_ne e st1 fields1 "tenantId" hf1 (by decide),
              hten, hten3]
      | ok res2 =>
        obtain ⟨tok1, ten1, st4⟩ := res2
        obtain ⟨v, claims2, hvTr, htv, hdk, hten⟩ := hTW.2 tok1 ten1 st4 htk
        obtain ⟨fields4, hf4⟩ :=
          ((preserves_stepToken cfg world true te1 _ _ st3).1 tok1 ten1 st4 htk).shapeMono
            ⟨fields3, hf3⟩
        cases hdc : stepDiscovery world (jsGetField (Json.obj fields) "apiEndpoint")
            ten1 st4 with
        | error es2 =>
          obtain ⟨e, st1⟩ := es2
          obtain ⟨fields5, hf5⟩ :=
            ((preserves_stepDiscovery world _ _ st4).2 e st1 hdc).shapeMono ⟨fields4, hf4⟩
          have hpt : cacheField st1 "token" = some v := by
            rw [(stepDiscovery_cacheField world _ _ st4 "token" (by decide)).2 e st1 hdc, htv]
          have hpten : cacheField st1 "tenantId" = jsGetField claims2 "tenantId" := by
            rw [(stepDiscovery_cacheField world _ _ st4 "tenantId" (by decide)).2 e st1 hdc,
              hten]
          refine Or.inr (Or.inr ⟨v, claims2, hvTr, ?_, hdk, ?_⟩)
          · simp only [htk, hdc,
              catchHandler_cacheField_ne e st1 fields5 "token" hf5 (by decide), hpt]
          · simp only [htk, hdc,
              catchHandler_cacheField_ne e st1 fields5 "tenantId" hf5 (by decide), hpten]
        | ok res3 =>
          obtain ⟨ae1, st5⟩ := res3
          obtain ⟨fields5, hf5⟩ :=
            ((preserves_stepDiscovery world _ _ st4).1 ae1 st5 hdc).shapeMono ⟨fields4, hf4⟩
          have hpt5 : cacheField st5 "token" = some v := by
            rw [(stepDiscovery_cacheField world _ _ st4 "token" (by decide)).1 ae1 st5 hdc,
              htv]
          have hpten5 : cacheField st5 "tenantId" = jsGetField claims2 "tenantId" := by
            rw [(stepDiscovery_cacheField world _ _ st4 "tenantId" (by decide)).1 ae1 st5 hdc,
              hten]
          cases hsg : stepSignal world cfg (stepBuildUrl cfg ae1 st5).1 tok1
              (stepBuildUrl cfg ae1 st5).2 with
          | error es3 =>
            obtain ⟨e, st1⟩ := es3
            have hctx1 : st1.ctx = st5.ctx := by
              rw [(stepSignal_ctx world cfg _ tok1 _).2 e st1 hsg, stepBuildUrl_ctx]
            have hf1 : assocGet "signal" st1.ctx = some (Json.obj fields5) := by
              rw [hctx1, hf5]
            have hcf1 : ∀ k, cacheField st1 k = cacheField st5 k := by
              intro k
              simp [cacheField, cacheVal, hctx1]
            refine Or.inr (Or.inr ⟨v, claims2, hvTr, ?_, hdk, ?_⟩)
            · simp only [htk, hdc, hsg,
                catchHandler_cacheField_ne e st1 fields5 "token" hf1 (by decide), hcf1, hpt5]
            · simp only [htk, hdc, hsg,
                catchHandler_cacheField_ne e st1 fields5 "tenantId" hf1 (by decide),
                hcf1, hpten5]
          | ok res4 =>
            obtain ⟨d, st7⟩ := res4
            have hctx7 : st7.ctx = st5.ctx := by
              rw [(stepSignal_ctx world cfg _ tok1 _).1 d st7 hsg, stepBuildUrl_ctx]
            have hcf7 : ∀ k, cacheField st7 k = cacheField st5 k := by
              intro k
              simp [cacheField, cacheVal, hctx7]
            have hstore : ∀ k, cacheField (stepStore cfg d st7) k = cacheField st7 k := by
              intro k
              simp [cacheField, stepStore_cacheVal cfg d st7 hsk]
            refine Or.inr (Or.inr ⟨v, claims2, hvTr, ?_, hdk, ?_⟩)
            · simp only [htk, hdc, hsg, hstore, hcf7, hpt5]
            · simp only [htk, hdc, hsg, hstore, hcf7, hpten5]
  · intro cfg world now ctx fields te ae hc hte hteTr hae haeTr hsk
    have hgte : jsGetField (Json.obj fields) "tokenEndpoint" = some te := by
      simp [jsGetField, hte]
    have hgae : jsGetField (Json.obj fields) "apiEndpoint" = some ae := by
      simp [jsGetField, hae]
    have hinner := inner_endpoints_cached cfg world now ctx (Json.obj fields) hc rfl
      (by simp [hgte, truthyOpt, hteTr]) (by simp [hgae, truthyOpt, haeTr])
    rw [hgte, hgae] at hinner
    have hctx2 : (stepCheckToken now (jsGetField (Json.obj fields) "token")
        (jsGetField (Json.obj fields) "tenantId") (initialState ctx)).2.2.ctx = ctx :=
      stepCheckToken_ctx now _ _ (initialState ctx)
    have hcf2 : ∀ k, cacheField (stepCheckToken now (jsGetField (Json.obj fields) "token")
        (jsGetField (Json.obj fields) "tenantId") (initialState ctx)).2.2 k =
        jsGetField (Json.obj fields) k := by
      intro k
      simp [cacheField, cacheVal, hctx2, hc]
    have hshape2 : assocGet "signal" (stepCheckToken now (jsGetField (Json.obj fields) "token")
        (jsGetField (Json.obj fields) "tenantId") (initialState ctx)).2.2.ctx =
        some (Json.obj fields) := by
      rw [hctx2, hc]
    unfold signalApiRun
    rw [hinner]
    cases htk : stepToken cfg world
        (stepCheckToken now (jsGetField (Json.obj fields) "token")
          (jsGetField (Json.obj fields) "tenantId") (initialState ctx)).1
        (some te) (jsGetField (Json.obj fields) "token")
        (stepCheckToken now (jsGetField (Json.obj fields) "token")
          (jsGetField (Json.obj fields) "tenantId") (initialState ctx)).2.1
        (stepCheckToken now (jsGetField (Json.obj fields) "token")
          (jsGetField (Json.obj fields) "tenantId") (initialState ctx)).2.2 with
    | error es =>
      obtain ⟨e, st1⟩ := es
      have hcf1 : ∀ k, k ≠ "token" → k ≠ "tenantId" →
          cacheField st1 k = jsGetField (Json.obj fields) k := by
        intro k hk1 hk2
        rw [(stepToken_cacheField cfg world _ _ _ _ _ k hk1 hk2).2 e st1 htk, hcf2]
      obtain ⟨fields1, hf1⟩ :=
        (preserves_stepToken cfg world _ _ _ _ _).2 e st1 htk |>.shapeMono ⟨fields, hshape2⟩
      constructor
      · simp only [catchHandler_cacheField_ne e st1 fields1 "tokenEndpoint" hf1 (by decide),
          hcf1 "tokenEndpoint" (by decide) (by decide), hgte]
      · simp only [catchHandler_cacheField_ne e st1 fields1 "apiEndpoint" hf1 (by decide),
          hcf1 "apiEndpoint" (by decide) (by decide), hgae]
    | ok res =>
      obtain ⟨tok1, tenant2, st4⟩ := res
      have hcf4 : ∀ k, k ≠ "token" → k ≠ "tenantId" →
          cacheField st4 k = jsGetField (Json.obj fields) k := by
        intro k hk1 hk2
        rw [(stepToken_cacheField cfg world _ _ _ _ _ k hk1 hk2).1 tok1 tenant2 st4 htk, hcf2]
      have hshape4 : ∃ fields4, assocGet "signal" st4.ctx = some (Json.obj fields4) :=
        (preserves_stepToken cfg world _ _ _ _ _).1 tok1 tenant2 st4 htk |>.shapeMono
          ⟨fields, hshape2⟩
      obtain ⟨fields4, hf4⟩ := hshape4
      cases hsg : stepSignal world cfg
          (stepBuildUrl cfg (some ae) st4).1 tok1
          (stepBuildUrl cfg (some ae) st4).2 with
      | error es =>
        obtain ⟨e, st1⟩ := es
        have hctx1 : st1.ctx = st4.ctx := by
          rw [(stepSignal_ctx world cfg _ tok1 _).2 e st1 hsg, stepBuildUrl_ctx]
        have hf1 : assocGet "signal" st1.ctx = some (Json.obj fields4) := by
          rw [hctx1, hf4]
        have hcf1 : ∀ k, k ≠ "token" → k ≠ "tenantId" →
            cacheField st1 k = jsGetField (Json.obj fields) k := by
          intro k hk1 hk2
          rw [show cacheField st1 k = cacheField st4 k from by
            simp [cacheField, cacheVal, hctx1], hcf4 k hk1 hk2]
        constructor
        · simp only [hsg,
            catchHandler_cacheField_ne e st1 fields4 "tokenEndpoint" hf1 (by decide),
            hcf1 "tokenEndpoint" (by decide) (by decide), hgte]
        · simp only [hsg,
            catchHandler_cacheField_ne e st1 fields4 "apiEndpoint" hf1 (by decide),
            hcf1 "apiEndpoint" (by decide) (by decide), hgae]
      | ok res2 =>
        obtain ⟨d, st7⟩ := res2
        have hctx7 : st7.ctx = st4.ctx := by
          rw [(stepSignal_ctx world cfg _ tok1 _).1 d st7 hsg, stepBuildUrl_ctx]
        have hcf7 : ∀ k, k ≠ "token" → k ≠ "tenantId" →
            cacheField st7 k = jsGetField (Json.obj fields) k := by
          intro k hk1 hk2
          rw [show cacheField st7 k = cacheField st4 k from by
            simp [cacheField, cacheVal, hctx7], hcf4 k hk1 hk2]
        have hstore : ∀ k, cacheField (stepStore cfg d st7) k = cacheField st7 k := by
          intro k
          simp [cacheField, stepStore_cacheVal cfg d st7 hsk]
        constructor
        · simp only [hsg, hstore, hcf7 "tokenEndpoint" (by decide) (by decide), hgte]
        · simp only [hsg, hstore, hcf7 "apiEndpoint" (by decide) (by decide), hgae]

/-- Witness for the amended C8: a refresh that ends decoding the
garbage access token lands in one of the three cases; cached truthy
endpoints survive a fully failing run. -/
theorem claim_c8_witness :
    ((cacheField (signalApiRun cfg2 worldC8c 1760000000 [("signal", cacheC8)]) "token" =
        some (Json.str tokExp) ∧
      cacheField (signalApiRun cfg2 worldC8c 1760000000 [("signal", cacheC8)]) "tenantId" =
        assocGet "tenantId" [("token", Json.str tokExp), ("tenantId", Json.str "tenant1")]) ∨
     (∃ v m, truthy v = true ∧
      cacheField (signalApiRun cfg2 worldC8c 1760000000 [("signal", cacheC8)]) "token" =
        some v ∧
      jsDecodeJWT (some v) = Except.error m ∧
      cacheField (signalApiRun cfg2 worldC8c 1760000000 [("signal", cacheC8)]) "tenantId" =
        assocGet "tenantId" [("token", Json.str tokExp), ("tenantId", Json.str "tenant1")]) ∨
     (∃ v claims2, truthy v = true ∧
      cacheField (signalApiRun cfg2 worldC8c 1760000000 [("signal", cacheC8)]) "token" =
        some v ∧
      jsDecodeJWT (some v) = Except.ok claims2 ∧
      cacheField (signalApiRun cfg2 worldC8c 1760000000 [("signal", cacheC8)]) "tenantId" =
        jsGetField claims2 "tenantId")) ∧
    (cacheField (signalApiRun cfg2 worldFail 0 [("signal", cacheC8b)]) "tokenEndpoint" =
        some (Json.str "https://auth.example.com/token") ∧
      cacheField (signalApiRun cfg2 worldFail 0 [("signal", cacheC8b)]) "apiEndpoint" =
        some (Json.str "https://api.example.com")) :=
  ⟨claim_c8_token_lifecycle.1 cfg2 worldC8c 1760000000 [("signal", cacheC8)]
      [("token", Json.str tokExp), ("tenantId", Json.str "tenant1")] tokExp claimsTokExp
      (by rfl) (by rfl) (by decide) (by rfl) (by rfl) (by decide),
   claim_c8_token_lifecycle.2 cfg2 worldFail 0 [("signal", cacheC8b)]
      [("tokenEndpoint", Json.str "https://auth.example.com/token"),
       ("apiEndpoint", Json.str "https://api.example.com")]
      (Json.str "https://auth.example.com/token") (Json.str "https://api.example.com")
      (by rfl) (by rfl) (by rfl) (by rfl) (by rfl) (by decide)⟩

/-- Counterexample to C8 as stated: the first invocation detects expiry
(its first log line says so), the refresh then fails at the OpenID
lookup, and afterwards the stale token/tenantId pair is still in the
cache — nothing was invalidated when expiry was detected.  The second
invocation also detects expiry, receives the access token `"garbage"`
and fails decoding it: the token field alone is overwritten (the line
273 write precedes the decode at line 277), so the new token sits next
to the stale tenant id — the pair is not even replaced atomically. -/
theorem claim_c8_counterexample :
    ((signalApiRun cfg2 worldFail 1760000000 [("signal", cacheC8)]).logs.get? 0 =
      some ("info", "Cached token expired, fetching new token") ∧
     cacheField (signalApiRun cfg2 worldFail 1760000000 [("signal", cacheC8)]) "token" =
      some (Json.str tokExp) ∧
     cacheField (signalApiRun cfg2 worldFail 1760000000 [("signal", cacheC8)]) "tenantId" =
      some (Json.str "tenant1")) ∧
    ((signalApiRun cfg2 worldC8c 1760000000 [("signal", cacheC8)]).logs.get? 0 =
      some ("info", "Cached token expired, fetching new token") ∧
     cacheField (signalApiRun cfg2 worldC8c 1760000000 [("signal", cacheC8)]) "token" =
      some (Json.str "garbage") ∧
     cacheField (signalApiRun cfg2 worldC8c 1760000000 [("signal", cacheC8)]) "tenantId" =
      some (Json.str "tenant1")) := by
  refine ⟨⟨?_, ?_, ?_⟩, ⟨?_, ?_, ?_⟩⟩ <;> rfl

end CXone
